import Mathlib

/-!
Verification development for `wpt_analyzer.py`, a Web Platform Tests report
analyzer.  The Python source is shallowly embedded: dictionaries become
association lists with Python's insertion/overwrite semantics, `Counter`
becomes an insertion-ordered tally list, `sorted` becomes a stable insertion
sort over Python tuple keys (integers and strings compared by code point),
and the formatting functions become `List String` producers joined by
newlines, exactly mirroring the `output.append` structure of the source.
-/

namespace WPTA

/-! ### Python string comparison (lexicographic by code point) -/

/-- Strict lexicographic order on char lists, comparing code points.
This models Python `<` on `str`. -/
def strLtB : List Char → List Char → Bool
  | [], [] => false
  | [], _ :: _ => true
  | _ :: _, [] => false
  | a :: as, b :: bs =>
    if a.toNat < b.toNat then true
    else if b.toNat < a.toNat then false
    else strLtB as bs

/-- One component of a Python sort-key tuple: an `int` or a `str`.
Every `sorted(...)` call in the source uses key tuples whose components
are of these two kinds. -/
inductive PyKey where
  | nat (n : Nat) : PyKey
  | str (s : List Char) : PyKey
deriving DecidableEq

/-- Strict comparison of key atoms.  Mixed-kind comparisons never occur in
the program (Python would raise `TypeError`); they are totalized by putting
every `nat` before every `str`. -/
def pkLt : PyKey → PyKey → Bool
  | .nat a, .nat b => decide (a < b)
  | .nat _, .str _ => true
  | .str _, .nat _ => false
  | .str a, .str b => strLtB a b

/-- Non-strict lexicographic order on Python key tuples. -/
def keyLe : List PyKey → List PyKey → Bool
  | [], _ => true
  | _ :: _, [] => false
  | a :: as, b :: bs =>
    if pkLt a b then true
    else if pkLt b a then false
    else keyLe as bs

/-- The ordering relation induced by a sort key, as used by Python
`sorted(l, key=key)`. -/
def pyKeyRel {α : Type} (key : α → List PyKey) (a b : α) : Prop :=
  keyLe (key a) (key b) = true

instance {α : Type} (key : α → List PyKey) : DecidableRel (pyKeyRel key) :=
  fun _ _ => instDecidableEqBool _ _

/-- Python `sorted(l, key=key)`: a stable sort by the key tuple.
Insertion sort (inserting later elements after key-equal earlier ones)
has exactly Python's stability behavior. -/
def pySorted {α : Type} (key : α → List PyKey) (l : List α) : List α :=
  List.insertionSort (pyKeyRel key) l

/-! ### Module-level constants of `wpt_analyzer.py` -/

def GREEN : String := "\x1b[92m"
def RED : String := "\x1b[91m"
def ORANGE : String := "\x1b[93m"
def BOLD : String := "\x1b[1m"
def RESET : String := "\x1b[0m"

def REGRESSION : String := "Regression"
def IMPROVEMENT : String := "Improvement"
def LATERAL : String := "Lateral"
def NO_CHANGE : String := "No Change"

def PASS : String := "PASS"
def OK : String := "OK"
def FAIL : String := "FAIL"
def TIMEOUT : String := "TIMEOUT"
def ERROR : String := "ERROR"
def CRASH : String := "CRASH"

/-- `STATUS_RANK = {PASS: 0, OK: 1, FAIL: 2, TIMEOUT: 2, ERROR: 2, CRASH: 2}` -/
def STATUS_RANK : List (String × Nat) :=
  [(PASS, 0), (OK, 1), (FAIL, 2), (TIMEOUT, 2), (ERROR, 2), (CRASH, 2)]

/-- `STATUS_RANK.get(s, 3)` -/
def rankGet (s : String) : Nat :=
  ((STATUS_RANK.find? (fun q => q.1 == s)).map (fun q => q.2)).getD 3

/-- `classify_change(old_status, new_status)` returning `(category, color)`. -/
def classify_change (old_status new_status : String) : String × String :=
  let old_rank := rankGet old_status
  let new_rank := rankGet new_status
  if old_rank > new_rank then (IMPROVEMENT, GREEN)
  else if old_rank < new_rank then (REGRESSION, RED)
  else if old_rank == new_rank && !(old_status == new_status) then (LATERAL, ORANGE)
  else (NO_CHANGE, RESET)

/-- `color_diff(value, positive_good)`; Python ints become `Int`. -/
def color_diff (value : Int) (positive_good : Bool) : String :=
  if value == 0 then toString value
  else
    let color := if decide (value > 0) == positive_good then GREEN else RED
    color ++ toString value ++ RESET

/-! ### The parsed report data model -/

/-- One entry of a test's `subtests` list: `{"name": ..., "status": ...}`. -/
structure Subtest where
  name : String
  status : String
deriving DecidableEq

/-- One entry of the `results` list:
`{"test": ..., "status": ..., "subtests": [...]}` (absent `subtests`
is modelled as the empty list, matching `result.get("subtests", [])`). -/
structure TestResult where
  test : String
  status : String
  subtests : List Subtest
deriving DecidableEq

/-- `WPTReportParser` after construction: it only ever uses `self.results`. -/
structure WPTReportParser where
  results : List TestResult
deriving DecidableEq

def get_total_tests (p : WPTReportParser) : Nat := p.results.length

def get_total_subtests (p : WPTReportParser) : Nat :=
  (p.results.map (fun r => r.subtests.length)).sum

/-! #### Python dict and Counter as insertion-ordered association lists -/

/-- Adding one occurrence of `k` to a `Counter`: bump in place, or append. -/
def counterAdd (m : List (String × Nat)) (k : String) : List (String × Nat) :=
  if m.any (fun q => q.1 == k) then
    m.map (fun q => if q.1 == k then (q.1, q.2 + 1) else q)
  else m ++ [(k, 1)]

/-- `Counter(ks)`: tally in first-occurrence order. -/
def counter (ks : List String) : List (String × Nat) := ks.foldl counterAdd []

/-- Lookup in a tally list (`m.get(k)` / `m[k]`). -/
def cnt (m : List (String × Nat)) (k : String) : Option Nat :=
  (m.find? (fun q => q.1 == k)).map (fun q => q.2)

/-- Python dict item assignment `m[k] = v`: overwrite in place, or append. -/
def dictInsert (m : List (String × String)) (k v : String) : List (String × String) :=
  if m.any (fun q => q.1 == k) then
    m.map (fun q => if q.1 == k then (q.1, v) else q)
  else m ++ [(k, v)]

/-- A Python dict comprehension over `ps` (later duplicates overwrite). -/
def dictOf (ps : List (String × String)) : List (String × String) :=
  ps.foldl (fun m q => dictInsert m q.1 q.2) []

/-- `m.get(k)` on a dict. -/
def dget (m : List (String × String)) (k : String) : Option String :=
  (m.find? (fun q => q.1 == k)).map (fun q => q.2)

/-- `m[k]` on a dict; the call sites below only ever index present keys
(Python would raise `KeyError` otherwise), so the default is never hit
under the hypotheses of the theorems. -/
def dgetD (m : List (String × String)) (k : String) : String := (dget m k).getD ""

/-- `k in m` on a dict. -/
def hasKey (m : List (String × String)) (k : String) : Bool :=
  m.any (fun q => q.1 == k)

/-- The `(key, status)` generator of `get_results(for_subtests=False)`. -/
def testPairs (p : WPTReportParser) : List (String × String) :=
  p.results.map (fun r => (r.test, r.status))

/-- The `(f"{test}::{name}", status)` generator of
`get_results(for_subtests=True)`. -/
def subtestPairs (p : WPTReportParser) : List (String × String) :=
  (p.results.map (fun r =>
    r.subtests.map (fun s => (r.test ++ "::" ++ s.name, s.status)))).flatten

/-- `get_results(for_subtests)`: a dict built from the generator. -/
def get_results (p : WPTReportParser) (for_subtests : Bool) : List (String × String) :=
  if for_subtests then dictOf (subtestPairs p) else dictOf (testPairs p)

/-- `get_status_summary(for_subtests)`: a `Counter` of statuses. -/
def get_status_summary (p : WPTReportParser) (for_subtests : Bool) : List (String × Nat) :=
  if for_subtests then
    counter ((p.results.map (fun r => r.subtests.map (fun s => s.status))).flatten)
  else counter (p.results.map (fun r => r.status))

/-! #### `get_details` and the single-file report -/

/-- A detail dict: test-level entries have no `subtest` field, sub-test
entries have one.  Rendering probes for the field, as the Python does. -/
structure DetailEntry where
  test : String
  subtest : Option String
  status : String
deriving DecidableEq

/-- The unsorted details list built inside `get_details`. -/
def rawDetails (p : WPTReportParser) (for_subtests : Bool) : List DetailEntry :=
  if for_subtests then
    (p.results.map (fun r =>
      r.subtests.map (fun s => ⟨r.test, some s.name, s.status⟩))).flatten
  else p.results.map (fun r => ⟨r.test, none, r.status⟩)

/-- The sort key of `get_details`:
`lambda x: (STATUS_RANK.get(x["status"], 3), x["test"])`.
Note the tie-break is the `test` field (the parent test), never the
`parent::child` flat key. -/
def detKey (e : DetailEntry) : List PyKey :=
  [.nat (rankGet e.status), .str e.test.data]

def get_details (p : WPTReportParser) (for_subtests : Bool) : List DetailEntry :=
  pySorted detKey (rawDetails p for_subtests)

/-- Python `str.capitalize()`. -/
def pyCapitalize (s : String) : String :=
  match s.data with
  | [] => ""
  | c :: rest => ⟨c.toUpper :: rest.map Char.toLower⟩

/-- `f"{s:<10}"`-style left justification. -/
def padTo (w : Nat) (s : String) : String :=
  s ++ (⟨List.replicate (w - s.length) ' '⟩ : String)

/-- `f"{s:>5}"`-style right justification. -/
def padLeftTo (w : Nat) (s : String) : String :=
  (⟨List.replicate (w - s.length) ' '⟩ : String) ++ s

/-- Sort key `lambda s: (STATUS_RANK.get(s, 3), s)` over status labels. -/
def statusKey (s : String) : List PyKey := [.nat (rankGet s), .str s.data]

/-- The `add_summary` helper of `format_single_file_report`. -/
def single_summary_lines (title : String) (total : Nat)
    (status_summary : List (String × Nat)) : List String :=
  ("\n" ++ BOLD ++ title ++ RESET ++ ": " ++ toString total) ::
  ("\n" ++ BOLD ++ title ++ " Status Summary:" ++ RESET) ::
  (pySorted statusKey (status_summary.map (fun q => q.1))).map (fun status =>
    let count := (cnt status_summary status).getD 0
    let color := if status == PASS || status == OK then GREEN else RED
    "  " ++ padTo 10 status ++ " " ++ color ++ toString count ++ RESET)

/-- One detail line of the single-file report (`"subtest" in item` probe). -/
def detailLine (color : String) (item : DetailEntry) : String :=
  match item.subtest with
  | some sub =>
    "  " ++ color ++ item.test ++ "::" ++ sub ++ " (" ++ item.status ++ ")" ++ RESET
  | none => "  " ++ color ++ item.test ++ " (" ++ item.status ++ ")" ++ RESET

/-- The `add_details` helper of `format_single_file_report`. -/
def single_details_lines (max_details : Nat) (title : String)
    (details : List DetailEntry) : List String :=
  ("\n" ++ BOLD ++ title ++ RESET ++ ":") ::
  (details.take max_details).map (fun item =>
    detailLine (if item.status == PASS || item.status == OK then GREEN else RED) item) ++
  (if decide (details.length > max_details) then
    ["  ... and " ++ toString (details.length - max_details) ++ " more"]
  else [])

/-- `format_single_file_report(detail_level, show_subtests, max_details)`. -/
def format_single_file_report (p : WPTReportParser) (detail_level : String)
    (show_subtests : Bool) (max_details : Nat) : String :=
  String.intercalate "\n"
    (single_summary_lines "Tests" (get_total_tests p) (get_status_summary p false) ++
     (if detail_level == "all" || detail_level == "changes" then
        single_details_lines max_details "Test Details" (get_details p false)
      else []) ++
     (if show_subtests then
        single_summary_lines "Subtests" (get_total_subtests p) (get_status_summary p true) ++
        (if detail_level == "all" || detail_level == "changes" then
          single_details_lines max_details "Subtest Details" (get_details p true)
        else [])
      else []))

/-! ### `WPTReportComparator` -/

/-- `WPTReportComparator.__init__` stores the two parsers and the three
configuration fields (and nothing else). -/
structure WPTReportComparator where
  parser_a : WPTReportParser
  parser_b : WPTReportParser
  detail_level : String
  max_details : Nat
  show_subtests : Bool
deriving DecidableEq

/-- `compare_counts(getter)`: `(file_a, file_b, difference)`. -/
def compare_counts (c : WPTReportComparator) (getter : WPTReportParser → Nat) :
    Nat × Nat × Int :=
  (getter c.parser_a, getter c.parser_b,
   (getter c.parser_b : Int) - (getter c.parser_a : Int))

/-- The per-status row of `compare_summaries`. -/
structure SummaryEntry where
  file_a : Nat
  file_b : Nat
  difference : Int
deriving DecidableEq

/-- A fixed enumeration of `set(sa.keys()) | set(sb.keys())`.  Python's set
iteration order is arbitrary; theorems below show the rendered output is
invariant under permutations of this list. -/
def statusUnion (sa sb : List (String × Nat)) : List String :=
  (sa.map (fun q => q.1) ++ sb.map (fun q => q.1)).dedup

/-- `compare_summaries(getter)`, parameterized over the iteration order of
`all_statuses`. -/
def compare_summaries_ord (all_statuses : List String)
    (sa sb : List (String × Nat)) : List (String × SummaryEntry) :=
  all_statuses.map (fun status =>
    (status, ⟨(cnt sa status).getD 0, (cnt sb status).getD 0,
              ((cnt sb status).getD 0 : Int) - ((cnt sa status).getD 0 : Int)⟩))

/-- A fixed enumeration of `set(results_a.keys()) | set(results_b.keys())`. -/
def union_keys (ra rb : List (String × String)) : List String :=
  (ra.map (fun q => q.1) ++ rb.map (fun q => q.1)).dedup

/-- The result of `compare_results`. -/
structure Analysis where
  new : List (String × String)
  removed : List (String × String)
  status_changes : List (String × String × String)
deriving DecidableEq

/-- `compare_results(results_a, results_b)`, parameterized over the
iteration order of `all_tests`. -/
def compare_results_ord (all_tests : List String)
    (ra rb : List (String × String)) : Analysis :=
  ⟨(all_tests.filter (fun t => !hasKey ra t)).map (fun t => (t, dgetD rb t)),
   (all_tests.filter (fun t => !hasKey rb t)).map (fun t => (t, dgetD ra t)),
   (all_tests.filter (fun t =>
      hasKey ra t && hasKey rb t && !(dgetD ra t == dgetD rb t))).map
     (fun t => (t, dgetD ra t, dgetD rb t))⟩

def compare_results (ra rb : List (String × String)) : Analysis :=
  compare_results_ord (union_keys ra rb) ra rb

/-! #### `_add_details` -/

/-- `[(item, status) for item, status in items if status in [PASS, OK]]` -/
def passingOf (items : List (String × String)) : List (String × String) :=
  items.filter (fun q => q.2 == PASS || q.2 == OK)

/-- `[(item, status) for item, status in items if status not in [PASS, OK]]` -/
def nonPassingOf (items : List (String × String)) : List (String × String) :=
  items.filter (fun q => !(q.2 == PASS || q.2 == OK))

/-- `sorted(category)` sorts the `(item, status)` tuples themselves. -/
def pairKey (q : String × String) : List PyKey := [.str q.1.data, .str q.2.data]

/-- One pass/non-pass group of `_add_details` (the body of its `for` loop). -/
def group_lines (max_details : Nat) (color label : String)
    (category : List (String × String)) : List String :=
  if category.isEmpty then [] else
    ("    " ++ label ++ ":") ::
    ((pySorted pairKey category).take max_details).map (fun q =>
      "      " ++ color ++ q.1 ++ " (" ++ q.2 ++ ")" ++ RESET) ++
    (if decide (category.length > max_details) then
      ["      " ++ color ++ "... and " ++
        toString (category.length - max_details) ++ " more" ++ RESET]
    else [])

/-- `_add_details(output, items, change_type)`: the lines it appends. -/
def add_details_lines (max_details : Nat) (items : List (String × String))
    (change_type : String) : List String :=
  if items.isEmpty then [] else
    ("\n  " ++ pyCapitalize change_type ++ " Details:") ::
    (group_lines max_details GREEN "Passing" (passingOf items) ++
     group_lines max_details RED "Non-passing" (nonPassingOf items))

/-! #### `_add_change_details` -/

/-- The filtered list `changes` inside `_add_change_details`. -/
def changesOf (status_changes : List (String × String × String))
    (change_type : String) : List (String × String × String) :=
  status_changes.filter (fun t => (classify_change t.2.1 t.2.2).1 == change_type)

/-- `sorted(changes)` sorts the `(test, old, new)` tuples themselves. -/
def tripleKey (t : String × String × String) : List PyKey :=
  [.str t.1.data, .str t.2.1.data, .str t.2.2.data]

/-- `_add_change_details(output, analysis, change_type, color)`:
the lines it appends. -/
def add_change_details_lines (max_details : Nat)
    (status_changes : List (String × String × String))
    (change_type color : String) : List String :=
  let changes := changesOf status_changes change_type
  if changes.isEmpty then [] else
    ("\n  " ++ change_type ++ "s:") ::
    ((pySorted tripleKey changes).take max_details).map (fun t =>
      "    " ++ color ++ t.1 ++ ": " ++ t.2.2 ++ RESET) ++
    (if decide (changes.length > max_details) then
      ["    " ++ color ++ "... and " ++
        toString (changes.length - max_details) ++ " more" ++ RESET]
    else [])

/-! #### `format_analysis` -/

/-- The `Capitalize: count` headline of one change category. -/
def countLine (change_type : String) (n : Nat) : String :=
  let color :=
    if change_type == "new" && decide (n > 0) then GREEN
    else if change_type == "removed" && decide (n > 0) then RED
    else RESET
  "  " ++ pyCapitalize change_type ++ ": " ++ color ++ toString n ++ RESET

/-- Sort key of `sorted(status_counts.items(), ...)`:
`lambda x: (STATUS_RANK.get(x[0], 3), x[0])`. -/
def statusCountKey (q : String × Nat) : List PyKey :=
  [.nat (rankGet q.1), .str q.1.data]

/-- One `status: count` tally row. -/
def tallyLine (q : String × Nat) : String :=
  "    " ++ q.1 ++ ": " ++ (if q.1 == PASS || q.1 == OK then GREEN else RED) ++
  toString q.2 ++ RESET

/-- The per-category status tally of `format_analysis`. -/
def status_tally_lines (items : List (String × String)) : List String :=
  (pySorted statusCountKey (counter (items.map (fun q => q.2)))).map tallyLine

/-- Splits a char list at the first occurrence of `->`, if any. -/
def splitFirstArrow : List Char → Option (List Char × List Char)
  | [] => none
  | '-' :: '>' :: rest => some ([], rest)
  | c :: rest => (splitFirstArrow rest).map (fun q => (c :: q.1, q.2))

/-- Models `change.split("->")[0]` and `[1]`.  Every string this is applied
to has the shape `old ++ "->" ++ new`, so the first field always exists;
for a status containing `->` itself, Python's two-name unpacking in the
loop would raise `ValueError`, which this total model does not reproduce
(it takes the first two fields, as the indexing in the sort key does). -/
def arrowParts (s : String) : String × String :=
  match splitFirstArrow s.data with
  | none => (s, "")
  | some (l, rest) =>
    match splitFirstArrow rest with
    | none => (⟨l⟩, ⟨rest⟩)
    | some (m, _) => (⟨l⟩, ⟨m⟩)

/-- Sort key of `sorted(change_counts.items(), ...)`. -/
def changeCountKey (q : String × Nat) : List PyKey :=
  [.nat (rankGet (arrowParts q.1).1), .nat (rankGet (arrowParts q.1).2),
   .str q.1.data]

/-- One `old->new: count` row, skipped when classified `No Change`. -/
def changeLine (q : String × Nat) : Option String :=
  let parts := arrowParts q.1
  let cls := classify_change parts.1 parts.2
  if cls.1 == NO_CHANGE then none
  else some ("    " ++ q.1 ++ ": " ++ cls.2 ++ toString q.2 ++ " " ++ RESET)

/-- The `Changed status:` block of `format_analysis` (always emitted). -/
def changed_status_lines
    (status_changes : List (String × String × String)) : List String :=
  "  Changed status:" ::
  (pySorted changeCountKey
    (counter (status_changes.map (fun t => t.2.1 ++ "->" ++ t.2.2)))).filterMap
    changeLine

/-- The headline + tally + (gated) details of one of `new`/`removed`. -/
def category_block (detail_level : String) (max_details : Nat)
    (items : List (String × String)) (change_type : String) : List String :=
  countLine change_type items.length ::
  (status_tally_lines items ++
   (if detail_level == "all" || detail_level == change_type then
     add_details_lines max_details items change_type
   else []))

/-- `format_analysis(analysis, title)`: the list of lines it returns. -/
def format_analysis (c : WPTReportComparator) (analysis : Analysis)
    (title : String) : List String :=
  ("\n" ++ BOLD ++ title ++ RESET ++ ":") ::
  (category_block c.detail_level c.max_details analysis.new "new" ++
   category_block c.detail_level c.max_details analysis.removed "removed" ++
   changed_status_lines analysis.status_changes ++
   (if c.detail_level == "all" || c.detail_level == "changes" then
     add_change_details_lines c.max_details analysis.status_changes REGRESSION RED ++
     add_change_details_lines c.max_details analysis.status_changes IMPROVEMENT GREEN
   else []))

/-! #### `format_comparison` -/

/-- `_format_count_change(title, counts)`. -/
def format_count_change (title : String) (counts : Nat × Nat × Int) : String :=
  title ++ ": " ++ toString counts.1 ++ " -> " ++ toString counts.2.1 ++
  " (" ++ color_diff counts.2.2 true ++ ")"

/-- Sort key of `_format_status_summary`. -/
def summaryKey (q : String × SummaryEntry) : List PyKey :=
  [.nat (rankGet q.1), .str q.1.data]

/-- `_format_status_summary(title, summary)`. -/
def format_status_summary_lines (title : String)
    (summary : List (String × SummaryEntry)) : List String :=
  ("\n" ++ BOLD ++ title ++ RESET ++ ":") ::
  (pySorted summaryKey summary).map (fun q =>
    "  " ++ padTo 10 q.1 ++ " " ++ padLeftTo 5 (toString q.2.file_a) ++ " -> " ++
    padLeftTo 5 (toString q.2.file_b) ++ " (" ++
    color_diff q.2.difference (q.1 == PASS || q.1 == OK) ++ ")")

/-- The `add_summary` helper of `format_comparison`. -/
def summary_block (title : String) (totals : Nat × Nat × Int)
    (summary : List (String × SummaryEntry)) : List String :=
  ("\n" ++ BOLD ++ title ++ RESET ++ ":") ::
  format_count_change "Total" totals ::
  format_status_summary_lines (title ++ " Status Summary") summary

/-- `format_comparison()`, parameterized over the four set-iteration
orders it consumes (statuses and keys, for tests and sub-tests). -/
def format_comparison_ord (c : WPTReportComparator)
    (ordStatT ordResT ordStatS ordResS : List String) : String :=
  String.intercalate "\n"
    (summary_block "Tests" (compare_counts c get_total_tests)
      (compare_summaries_ord ordStatT
        (get_status_summary c.parser_a false) (get_status_summary c.parser_b false)) ++
     format_analysis c
       (compare_results_ord ordResT
         (get_results c.parser_a false) (get_results c.parser_b false))
       "Detailed Test Summary" ++
     (if c.show_subtests then
        summary_block "Subtests" (compare_counts c get_total_subtests)
          (compare_summaries_ord ordStatS
            (get_status_summary c.parser_a true) (get_status_summary c.parser_b true)) ++
        format_analysis c
          (compare_results_ord ordResS
            (get_results c.parser_a true) (get_results c.parser_b true))
          "Detailed Subtest Summary"
      else []))

/-- `format_comparison()` with the canonical set enumerations. -/
def format_comparison (c : WPTReportComparator) : String :=
  format_comparison_ord c
    (statusUnion (get_status_summary c.parser_a false) (get_status_summary c.parser_b false))
    (union_keys (get_results c.parser_a false) (get_results c.parser_b false))
    (statusUnion (get_status_summary c.parser_a true) (get_status_summary c.parser_b true))
    (union_keys (get_results c.parser_a true) (get_results c.parser_b true))

/-! ### The `show_passing` filter, modelled from the spec

The test suite and the spec (sections 4.2 and 4.4) describe a
`show_passing` configuration flag, but the constructors in
`wpt_analyzer.py` accept no such parameter and no filtering code exists
in the reviewed source.  The definitions below are therefore modelled
from the spec, not translated from source code. -/

/-- Modelled from the spec: the `show_passing` detail filter, which is
absent from `wpt_analyzer.py` (its constructors take no such parameter;
only the test suite references it).  Per spec §4.4, when `show_passing`
is false an entry whose outcome is `PASS` or `OK` is excluded from a
detail listing; the filter applies before sorting and truncation. -/
def filter_passing (show_passing : Bool) (items : List (String × String)) :
    List (String × String) :=
  if show_passing then items else nonPassingOf items

/-- Modelled from the spec: `format_analysis` extended with the missing
`show_passing` flag.  Detail listings for `new`/`removed` draw from the
filtered population, `Improvement` change details are suppressed when the
flag is false, and every numeric count and tally is computed from the
unfiltered analysis (spec §4.4: the filter never affects summary counts). -/
def format_analysis_sp (show_passing : Bool) (detail_level : String)
    (max_details : Nat) (analysis : Analysis) (title : String) : List String :=
  ("\n" ++ BOLD ++ title ++ RESET ++ ":") ::
  ((countLine "new" analysis.new.length ::
    (status_tally_lines analysis.new ++
     (if detail_level == "all" || detail_level == "new" then
       add_details_lines max_details (filter_passing show_passing analysis.new) "new"
     else []))) ++
   (countLine "removed" analysis.removed.length ::
    (status_tally_lines analysis.removed ++
     (if detail_level == "all" || detail_level == "removed" then
       add_details_lines max_details (filter_passing show_passing analysis.removed) "removed"
     else []))) ++
   changed_status_lines analysis.status_changes ++
   (if detail_level == "all" || detail_level == "changes" then
     add_change_details_lines max_details analysis.status_changes REGRESSION RED ++
     (if show_passing then
       add_change_details_lines max_details analysis.status_changes IMPROVEMENT GREEN
     else [])
   else []))

/-- Modelled from the spec: the detail population of the single-file
report under `show_passing` — entries whose outcome is `PASS`/`OK` are
dropped before sorting when the flag is false (spec §4.2). -/
def single_details_sp (show_passing : Bool) (p : WPTReportParser)
    (for_subtests : Bool) : List DetailEntry :=
  pySorted detKey
    (if show_passing then rawDetails p for_subtests
     else (rawDetails p for_subtests).filter
       (fun e => !(e.status == PASS || e.status == OK)))

/-- Modelled from the spec: `format_single_file_report` extended with the
missing `show_passing` flag; the summary section is always computed from
the unfiltered report. -/
def format_single_file_report_sp (p : WPTReportParser) (detail_level : String)
    (show_subtests : Bool) (max_details : Nat) (show_passing : Bool) : String :=
  String.intercalate "\n"
    (single_summary_lines "Tests" (get_total_tests p) (get_status_summary p false) ++
     (if detail_level == "all" || detail_level == "changes" then
        single_details_lines max_details "Test Details" (single_details_sp show_passing p false)
      else []) ++
     (if show_subtests then
        single_summary_lines "Subtests" (get_total_subtests p) (get_status_summary p true) ++
        (if detail_level == "all" || detail_level == "changes" then
          single_details_lines max_details "Subtest Details" (single_details_sp show_passing p true)
        else [])
      else []))

/-- Modelled from the spec: `format_comparison` with the `show_passing`
flag threaded through to `format_analysis_sp`; the headline totals and
status summaries are unchanged by the flag (spec §4.4). -/
def format_comparison_sp (c : WPTReportComparator) (show_passing : Bool) : String :=
  String.intercalate "\n"
    (summary_block "Tests" (compare_counts c get_total_tests)
      (compare_summaries_ord
        (statusUnion (get_status_summary c.parser_a false) (get_status_summary c.parser_b false))
        (get_status_summary c.parser_a false) (get_status_summary c.parser_b false)) ++
     format_analysis_sp show_passing c.detail_level c.max_details
       (compare_results (get_results c.parser_a false) (get_results c.parser_b false))
       "Detailed Test Summary" ++
     (if c.show_subtests then
        summary_block "Subtests" (compare_counts c get_total_subtests)
          (compare_summaries_ord
            (statusUnion (get_status_summary c.parser_a true) (get_status_summary c.parser_b true))
            (get_status_summary c.parser_a true) (get_status_summary c.parser_b true)) ++
        format_analysis_sp show_passing c.detail_level c.max_details
          (compare_results (get_results c.parser_a true) (get_results c.parser_b true))
          "Detailed Subtest Summary"
      else []))

/-! ### The raw JSON boundary (`__init__`, `get_results` on raw dicts)

For the error-handling claims the relevant behavior is field access on
the deserialized JSON objects, so the raw layer models each JSON object
as a record of optional fields and each `obj["field"]` access as a
`KeyError`-raising (`Except`) lookup. -/

/-- A raw `subtests` entry as deserialized from JSON. -/
structure RawSubtest where
  name : Option String
  status : Option String
deriving DecidableEq

/-- A raw `results` entry as deserialized from JSON. -/
structure RawTest where
  test : Option String
  status : Option String
  subtests : Option (List RawSubtest)
deriving DecidableEq

/-- A raw top-level document as deserialized from JSON. -/
structure RawDoc where
  results : Option (List RawTest)
deriving DecidableEq

/-- `self.results = self.data.get("results", [])` — a missing `results`
key silently becomes the empty list; construction never fails on a
well-formed JSON document. -/
def initResults (d : RawDoc) : List RawTest := d.results.getD []

/-- `obj["field"]`: raises `KeyError` when the field is absent. -/
def rawField {α : Type} (o : Option α) (key : String) : Except String α :=
  match o with
  | some v => Except.ok v
  | none => Except.error ("KeyError: " ++ key)

/-- The body of the dict comprehension in `get_results` (test scope):
`result["test"]` then `result["status"]`. -/
def rawPair (r : RawTest) : Except String (String × String) := do
  let t ← rawField r.test "test"
  let s ← rawField r.status "status"
  pure (t, s)

/-- The generator of `get_results` over raw entries: evaluates every
entry's fields in order; the first missing field raises. -/
def rawPairs : List RawTest → Except String (List (String × String))
  | [] => Except.ok []
  | r :: rs => do
    let q ← rawPair r
    let qs ← rawPairs rs
    pure (q :: qs)

/-- `get_results(for_subtests=False)` over raw entries: the comprehension
evaluates every entry's fields (first missing field raises) and builds
the dict. -/
def get_results_raw (rs : List RawTest) : Except String (List (String × String)) := do
  let ps ← rawPairs rs
  pure (dictOf ps)

/-! ### Auxiliary specification-side definitions -/

/-- The value of the key's last occurrence in the generator list:
the Python dict-comprehension overwrite semantics. -/
def lastVal (ps : List (String × String)) (k : String) : Option String :=
  (ps.reverse.find? (fun q => q.1 == k)).map (fun q => q.2)

def isPrefixCL : List Char → List Char → Bool
  | [], _ => true
  | _ :: _, [] => false
  | a :: as, b :: bs => a == b && isPrefixCL as bs

def containsCL (sub : List Char) : List Char → Bool
  | [] => isPrefixCL sub []
  | c :: rest => isPrefixCL sub (c :: rest) || containsCL sub rest

/-- Python's substring test `sub in s`. -/
def strContainsB (s sub : String) : Bool := containsCL sub.data s.data

/-- The `parent::child` flat key of a detail entry (the key the spec's
ordering claim refers to). -/
def flatKey (e : DetailEntry) : String :=
  match e.subtest with
  | some sub => e.test ++ "::" ++ sub
  | none => e.test

/-- The ordering key asserted by the spec for `detailed_list`:
`(rank(outcome), flat key)`.  Stated from the spec's words, for
comparison against the key the source actually uses (`detKey`). -/
def claimedDetKey (e : DetailEntry) : List PyKey :=
  [.nat (rankGet e.status), .str (flatKey e).data]

/-! ### Order lemmas for the Python sort model -/

theorem charToNat_inj {a b : Char} (h : a.toNat = b.toNat) : a = b := by
  cases a with
  | mk v hv =>
    cases b with
    | mk w hw =>
      simp only [Char.toNat] at h
      have hvw : v = w := UInt32.ext h
      subst hvw
      rfl

theorem strLtB_asymm : ∀ l₁ l₂ : List Char,
    strLtB l₁ l₂ = true → strLtB l₂ l₁ = false
  | [], [], h => by simp [strLtB] at h
  | [], _ :: _, _ => by simp [strLtB]
  | _ :: _, [], h => by simp [strLtB] at h
  | a :: as, b :: bs, h => by
    simp only [strLtB] at h ⊢
    by_cases hab : a.toNat < b.toNat
    · have hba : ¬ b.toNat < a.toNat := Nat.lt_asymm hab
      simp [hab, hba]
    · by_cases hba : b.toNat < a.toNat
      · simp [hab, hba] at h
      · simp only [hab, hba, if_false] at h ⊢
        exact strLtB_asymm as bs h

theorem strLtB_eq_of_not : ∀ l₁ l₂ : List Char,
    strLtB l₁ l₂ = false → strLtB l₂ l₁ = false → l₁ = l₂
  | [], [], _, _ => rfl
  | [], _ :: _, h, _ => by simp [strLtB] at h
  | _ :: _, [], _, h => by simp [strLtB] at h
  | a :: as, b :: bs, h₁, h₂ => by
    simp only [strLtB] at h₁ h₂
    by_cases hab : a.toNat < b.toNat
    · simp [hab] at h₁
    · by_cases hba : b.toNat < a.toNat
      · simp [hba] at h₂
      · have hcn : a.toNat = b.toNat :=
          Nat.le_antisymm (Nat.not_lt.mp hba) (Nat.not_lt.mp hab)
        have hc : a = b := charToNat_inj hcn
        subst hc
        simp only [hab, if_false, lt_irrefl] at h₁ h₂
        rw [strLtB_eq_of_not as bs h₁ h₂]

theorem strLtB_trans : ∀ l₁ l₂ l₃ : List Char,
    strLtB l₁ l₂ = true → strLtB l₂ l₃ = true → strLtB l₁ l₃ = true
  | [], [], _, h₁, _ => by simp [strLtB] at h₁
  | [], _ :: _, [], _, h₂ => by simp [strLtB] at h₂
  | [], _ :: _, _ :: _, _, _ => by simp [strLtB]
  | _ :: _, [], _, h₁, _ => by simp [strLtB] at h₁
  | _ :: _, _ :: _, [], _, h₂ => by simp [strLtB] at h₂
  | a :: as, b :: bs, c :: cs, h₁, h₂ => by
    simp only [strLtB] at h₁ h₂ ⊢
    by_cases hab : a.toNat < b.toNat
    · by_cases hbc : b.toNat < c.toNat
      · simp [Nat.lt_trans hab hbc]
      · by_cases hcb : c.toNat < b.toNat
        · simp [hbc, hcb] at h₂
        · have hc : b = c := charToNat_inj
            (Nat.le_antisymm (Nat.not_lt.mp hcb) (Nat.not_lt.mp hbc))
          subst hc
          simp [hab]
    · by_cases hba : b.toNat < a.toNat
      · simp [hab, hba] at h₁
      · have hc : a = b := charToNat_inj
          (Nat.le_antisymm (Nat.not_lt.mp hba) (Nat.not_lt.mp hab))
        subst hc
        simp only [hab, if_false, lt_irrefl] at h₁
        by_cases hbc : a.toNat < c.toNat
        · simp [hbc]
        · by_cases hcb : c.toNat < a.toNat
          · simp [hbc, hcb] at h₂
          · simp only [hbc, hcb, if_false] at h₂ ⊢
            exact strLtB_trans as bs cs h₁ h₂

theorem pkLt_asymm : ∀ x y : PyKey, pkLt x y = true → pkLt y x = false
  | .nat a, .nat b, h => by
    simp only [pkLt, decide_eq_true_eq] at h
    simp [pkLt, Nat.lt_asymm h]
  | .nat _, .str _, _ => by simp [pkLt]
  | .str _, .nat _, h => by simp [pkLt] at h
  | .str a, .str b, h => by
    simp only [pkLt] at h ⊢
    exact strLtB_asymm a b h

theorem pkLt_eq_of_not : ∀ x y : PyKey,
    pkLt x y = false → pkLt y x = false → x = y
  | .nat a, .nat b, h₁, h₂ => by
    simp only [pkLt, decide_eq_false_iff_not] at h₁ h₂
    have : a = b := Nat.le_antisymm (Nat.not_lt.mp h₂) (Nat.not_lt.mp h₁)
    rw [this]
  | .nat _, .str _, h, _ => by simp [pkLt] at h
  | .str _, .nat _, _, h => by simp [pkLt] at h
  | .str a, .str b, h₁, h₂ => by
    simp only [pkLt] at h₁ h₂
    rw [strLtB_eq_of_not a b h₁ h₂]

theorem pkLt_trans : ∀ x y z : PyKey,
    pkLt x y = true → pkLt y z = true → pkLt x z = true
  | .nat a, .nat b, .nat c, h₁, h₂ => by
    simp only [pkLt, decide_eq_true_eq] at h₁ h₂ ⊢
    exact Nat.lt_trans h₁ h₂
  | .nat _, .nat _, .str _, _, _ => by simp [pkLt]
  | .nat _, .str _, .nat _, _, h₂ => by simp [pkLt] at h₂
  | .nat _, .str _, .str _, _, _ => by simp [pkLt]
  | .str _, .nat _, _, h₁, _ => by simp [pkLt] at h₁
  | .str _, .str _, .nat _, _, h₂ => by simp [pkLt] at h₂
  | .str a, .str b, .str c, h₁, h₂ => by
    simp only [pkLt] at h₁ h₂ ⊢
    exact strLtB_trans a b c h₁ h₂

theorem keyLe_total : ∀ k₁ k₂ : List PyKey,
    keyLe k₁ k₂ = true ∨ keyLe k₂ k₁ = true
  | [], _ => Or.inl (by simp [keyLe])
  | _ :: _, [] => Or.inr (by simp [keyLe])
  | a :: as, b :: bs => by
    by_cases hab : pkLt a b = true
    · exact Or.inl (by simp [keyLe, hab])
    · by_cases hba : pkLt b a = true
      · exact Or.inr (by simp [keyLe, hba])
      · cases keyLe_total as bs with
        | inl h =>
          exact Or.inl (by
            simp only [keyLe, Bool.not_eq_true] at *
            simp [hab, hba, h])
        | inr h =>
          exact Or.inr (by
            simp only [keyLe, Bool.not_eq_true] at *
            simp [hab, hba, h])

theorem keyLe_antisymm : ∀ k₁ k₂ : List PyKey,
    keyLe k₁ k₂ = true → keyLe k₂ k₁ = true → k₁ = k₂
  | [], [], _, _ => rfl
  | [], _ :: _, _, h₂ => by simp [keyLe] at h₂
  | _ :: _, [], h₁, _ => by simp [keyLe] at h₁
  | a :: as, b :: bs, h₁, h₂ => by
    simp only [keyLe] at h₁ h₂
    by_cases hab : pkLt a b = true
    · have hba := pkLt_asymm a b hab
      simp [hab, hba] at h₂
    · by_cases hba : pkLt b a = true
      · simp [hba, pkLt_asymm b a hba] at h₁
      · simp only [Bool.not_eq_true] at hab hba
        have hc : a = b := pkLt_eq_of_not a b hab hba
        subst hc
        simp only [hab, hba, if_false] at h₁ h₂
        rw [keyLe_antisymm as bs h₁ h₂]

theorem keyLe_trans : ∀ k₁ k₂ k₃ : List PyKey,
    keyLe k₁ k₂ = true → keyLe k₂ k₃ = true → keyLe k₁ k₃ = true
  | [], _, _, _, _ => by simp [keyLe]
  | _ :: _, [], _, h₁, _ => by simp [keyLe] at h₁
  | _ :: _, _ :: _, [], _, h₂ => by simp [keyLe] at h₂
  | a :: as, b :: bs, c :: cs, h₁, h₂ => by
    simp only [keyLe] at h₁ h₂ ⊢
    by_cases hab : pkLt a b = true
    · by_cases hbc : pkLt b c = true
      · simp [pkLt_trans a b c hab hbc]
      · by_cases hcb : pkLt c b = true
        · simp [hbc, hcb] at h₂
        · simp only [Bool.not_eq_true] at hbc hcb
          have hc : b = c := pkLt_eq_of_not b c hbc hcb
          subst hc
          simp [hab]
    · by_cases hba : pkLt b a = true
      · simp [hab, hba] at h₁
      · simp only [Bool.not_eq_true] at hab hba
        have hc : a = b := pkLt_eq_of_not a b hab hba
        subst hc
        simp only [hab, hba, if_false] at h₁
        by_cases hac : pkLt a c = true
        · simp [hac]
        · by_cases hca : pkLt c a = true
          · simp [hac, hca] at h₂
          · simp only [Bool.not_eq_true] at hac hca
            simp only [hac, hca, if_false] at h₂ ⊢
            exact keyLe_trans as bs cs h₁ h₂

/-! ### Generic facts about `pySorted` -/

theorem pySorted_perm {α : Type} (key : α → List PyKey) (l : List α) :
    (pySorted key l).Perm l :=
  List.perm_insertionSort (pyKeyRel key) l

theorem pySorted_sorted {α : Type} (key : α → List PyKey) (l : List α) :
    List.Sorted (pyKeyRel key) (pySorted key l) := by
  haveI : IsTotal α (pyKeyRel key) := ⟨fun a b => keyLe_total (key a) (key b)⟩
  haveI : IsTrans α (pyKeyRel key) :=
    ⟨fun a b c h₁ h₂ => keyLe_trans (key a) (key b) (key c) h₁ h₂⟩
  exact List.sorted_insertionSort (pyKeyRel key) l

/-- Two sorted lists that are permutations of each other and whose
relation is antisymmetric on their members are equal. -/
theorem sorted_perm_unique {α : Type} (r : α → α → Prop) :
    ∀ l₁ l₂ : List α, l₁.Perm l₂ → l₁.Sorted r → l₂.Sorted r →
      (∀ a ∈ l₁, ∀ b ∈ l₁, r a b → r b a → a = b) → l₁ = l₂
  | [], l₂, hperm, _, _, _ => (hperm.symm.eq_nil).symm ▸ rfl
  | a :: t₁, [], hperm, _, _, _ => absurd hperm.eq_nil (by simp)
  | a :: t₁, b :: t₂, hperm, hs₁, hs₂, hanti => by
    have hab : a = b := by
      by_cases heq : a = b
      · exact heq
      · have ha2 : a ∈ b :: t₂ := hperm.mem_iff.mp (List.mem_cons_self a t₁)
        have ha2' : a ∈ t₂ := by
          cases List.mem_cons.mp ha2 with
          | inl h => exact absurd h heq
          | inr h => exact h
        have hb1 : b ∈ a :: t₁ := hperm.symm.mem_iff.mp (List.mem_cons_self b t₂)
        have hb1' : b ∈ t₁ := by
          cases List.mem_cons.mp hb1 with
          | inl h => exact absurd h.symm heq
          | inr h => exact h
        exact hanti a (List.mem_cons_self a t₁) b (List.mem_cons_of_mem a hb1')
          (List.rel_of_sorted_cons hs₁ b hb1')
          (List.rel_of_sorted_cons hs₂ a ha2')
    subst hab
    have ht : t₁.Perm t₂ := hperm.cons_inv
    have htl : t₁ = t₂ :=
      sorted_perm_unique r t₁ t₂ ht hs₁.of_cons hs₂.of_cons
        (fun x hx y hy => hanti x (List.mem_cons_of_mem a hx)
          y (List.mem_cons_of_mem a hy))
    rw [htl]

/-- Sorting two permuted lists by a key that is injective on their
members yields the same list: the core of the determinism claims. -/
theorem pySorted_eq_of_perm {α : Type} (key : α → List PyKey)
    {l₁ l₂ : List α} (h : l₁.Perm l₂)
    (hinj : ∀ a ∈ l₁, ∀ b ∈ l₁, key a = key b → a = b) :
    pySorted key l₁ = pySorted key l₂ := by
  apply sorted_perm_unique (pyKeyRel key)
  · exact (pySorted_perm key l₁).trans (h.trans (pySorted_perm key l₂).symm)
  · exact pySorted_sorted key l₁
  · exact pySorted_sorted key l₂
  · intro a ha b hb hr₁ hr₂
    exact hinj a ((pySorted_perm key l₁).mem_iff.mp ha)
      b ((pySorted_perm key l₁).mem_iff.mp hb)
      (keyLe_antisymm (key a) (key b) hr₁ hr₂)

/-! ### Association-list lemmas (Counter and dict) -/

theorem find?_fst_map {β : Type} (m : List (String × β))
    (f : String × β → String × β) (hf : ∀ q, (f q).1 = q.1) (k : String) :
    (m.map f).find? (fun q => q.1 == k) =
      (m.find? (fun q => q.1 == k)).map f := by
  have hcmp : ((fun q : String × β => q.1 == k) ∘ f) =
      (fun q : String × β => q.1 == k) := by
    funext q
    simp [Function.comp, hf]
  rw [List.find?_map, hcmp]

theorem cnt_counterAdd (m : List (String × Nat)) (j k : String) :
    cnt (counterAdd m j) k =
      if k = j then some ((cnt m k).getD 0 + 1) else cnt m k := by
  unfold counterAdd cnt
  by_cases hj : m.any (fun q => q.1 == j) = true
  · simp only [hj, if_true]
    rw [find?_fst_map m _ (fun q => by by_cases h : q.1 == j <;> simp [h]) k]
    cases hf : m.find? (fun q => q.1 == k) with
    | none =>
      simp only [hf, Option.map_none']
      by_cases hkj : k = j
      · subst hkj
        rw [List.any_eq_true] at hj
        obtain ⟨q, hq, hq2⟩ := hj
        rw [List.find?_eq_none] at hf
        exact absurd hq2 (by simpa using hf q hq)
      · simp [hkj]
    | some q =>
      have hq1 : q.1 = k := by simpa using List.find?_some hf
      simp only [hf, Option.map_some']
      by_cases hkj : k = j
      · subst hkj
        simp [hq1]
      · simp [hq1, hkj]
  · rw [if_neg hj, List.find?_append]
    by_cases hkj : k = j
    · subst hkj
      have hnone : m.find? (fun q => q.1 == k) = none := by
        rw [List.find?_eq_none]
        intro q hq
        intro hc
        rw [List.any_eq_true] at hj
        exact hj ⟨q, hq, hc⟩
      simp [hnone]
    · have hjk : (j == k) = false := by
        simp only [beq_eq_false_iff_ne, ne_eq]
        exact fun h => hkj h.symm
      have hone : List.find? (fun q => q.1 == k) [(j, (1 : Nat))] = none := by
        simp [List.find?, hjk]
      simp [hone, hkj]

theorem cnt_foldl : ∀ (l : List String) (m : List (String × Nat)) (k : String),
    cnt (l.foldl counterAdd m) k =
      if k ∈ l then some ((cnt m k).getD 0 + l.count k) else cnt m k
  | [], m, k => by simp
  | x :: xs, m, k => by
    simp only [List.foldl_cons]
    rw [cnt_foldl xs (counterAdd m x) k, cnt_counterAdd]
    by_cases hkx : k = x
    · subst hkx
      by_cases hmem : k ∈ xs
      · simp only [hmem, if_true, List.mem_cons, true_or, List.count_cons,
          beq_self_eq_true, if_true, Option.getD_some]
        congr 1
        omega
      · simp only [hmem, if_false, List.mem_cons, true_or, if_true, if_pos rfl,
          List.count_cons, beq_self_eq_true]
        rw [List.count_eq_zero_of_not_mem (by simpa using hmem)]
    · by_cases hmem : k ∈ xs
      · have : k ∈ x :: xs := List.mem_cons_of_mem x hmem
        simp only [hmem, if_true, hkx, if_false, this, List.count_cons]
        have : (x == k) = false := by simpa using fun h => hkx h.symm
        simp [this]
      · have : k ∉ x :: xs := by simp [hkx, hmem]
        simp [hmem, hkx, this]

theorem cnt_counter (l : List String) (k : String) :
    cnt (counter l) k = if k ∈ l then some (l.count k) else none := by
  unfold counter
  rw [cnt_foldl]
  simp [cnt]

theorem counterAdd_keys (m : List (String × Nat)) (j : String) :
    (counterAdd m j).map (fun q => q.1) =
      if m.any (fun q => q.1 == j) then m.map (fun q => q.1)
      else m.map (fun q => q.1) ++ [j] := by
  unfold counterAdd
  by_cases hj : m.any (fun q => q.1 == j) = true
  · simp only [hj, if_true, List.map_map]
    congr 1
    funext q
    by_cases h : q.1 == j <;> simp [Function.comp, h]
  · simp [hj]

theorem counter_foldl_nodup : ∀ (l : List String) (m : List (String × Nat)),
    (m.map (fun q => q.1)).Nodup → ((l.foldl counterAdd m).map (fun q => q.1)).Nodup
  | [], _, h => h
  | x :: xs, m, h => by
    simp only [List.foldl_cons]
    apply counter_foldl_nodup xs
    rw [counterAdd_keys]
    by_cases hx : m.any (fun q => q.1 == x) = true
    · simpa [hx] using h
    · rw [if_neg hx, List.nodup_append]
      refine ⟨h, List.nodup_singleton x, ?_⟩
      intro y hy hmem
      simp only [List.mem_singleton] at hmem
      subst hmem
      obtain ⟨q, hq, hq1⟩ := List.mem_map.mp hy
      rw [List.any_eq_true] at hx
      exact hx ⟨q, hq, by simp [hq1]⟩

theorem counter_nodupKeys (l : List String) :
    ((counter l).map (fun q => q.1)).Nodup :=
  counter_foldl_nodup l [] (by simp)

theorem cnt_eq_of_mem : ∀ (m : List (String × Nat)),
    (m.map (fun q => q.1)).Nodup →
    ∀ {k : String} {c : Nat}, (k, c) ∈ m → cnt m k = some c
  | [], _, _, _, h => absurd h (by simp)
  | q :: m, hnd, k, c, h => by
    rw [List.map_cons] at hnd
    have hparts := List.nodup_cons.mp hnd
    cases List.mem_cons.mp h with
    | inl he =>
      rw [← he]
      simp [cnt, List.find?]
    | inr hm =>
      have hk : k ∈ m.map (fun q => q.1) := List.mem_map.mpr ⟨(k, c), hm, rfl⟩
      have hne : (q.1 == k) = false := by
        simp only [beq_eq_false_iff_ne, ne_eq]
        intro he
        exact hparts.1 (he ▸ hk)
      simpa [cnt, List.find?, hne] using cnt_eq_of_mem m hparts.2 hm

theorem mem_of_cnt {m : List (String × Nat)} {k : String} {c : Nat}
    (h : cnt m k = some c) : (k, c) ∈ m := by
  unfold cnt at h
  cases hf : m.find? (fun q => q.1 == k) with
  | none => rw [hf] at h; simp at h
  | some q =>
    rw [hf] at h
    simp only [Option.map_some', Option.some_inj] at h
    have hq1 : q.1 = k := by simpa using List.find?_some hf
    have hqm := List.mem_of_find?_eq_some hf
    have hq : q = (k, c) := by
      cases q
      simp_all
    exact hq ▸ hqm

theorem mem_counter (l : List String) (k : String) (c : Nat) :
    (k, c) ∈ counter l ↔ (k ∈ l ∧ c = l.count k) := by
  constructor
  · intro h
    have hc := cnt_eq_of_mem (counter l) (counter_nodupKeys l) h
    rw [cnt_counter] at hc
    by_cases hk : k ∈ l
    · rw [if_pos hk] at hc
      exact ⟨hk, (Option.some_inj.mp hc).symm⟩
    · rw [if_neg hk] at hc
      exact absurd hc (by simp)
  · intro h
    obtain ⟨hk, hc⟩ := h
    subst hc
    apply mem_of_cnt
    rw [cnt_counter]
    simp [hk]

theorem counter_perm {l₁ l₂ : List String} (h : l₁.Perm l₂) :
    (counter l₁).Perm (counter l₂) := by
  have h₁ : (counter l₁).Nodup := List.Nodup.of_map _ (counter_nodupKeys l₁)
  have h₂ : (counter l₂).Nodup := List.Nodup.of_map _ (counter_nodupKeys l₂)
  rw [List.perm_ext_iff_of_nodup h₁ h₂]
  intro q
  cases q with
  | mk k c =>
    rw [mem_counter, mem_counter]
    exact ⟨fun hx => ⟨h.mem_iff.mp hx.1, by rw [hx.2, h.count_eq]⟩,
           fun hx => ⟨h.mem_iff.mpr hx.1, by rw [hx.2, h.count_eq]⟩⟩

theorem counter_fst_inj (l : List String) :
    ∀ a ∈ counter l, ∀ b ∈ counter l, a.1 = b.1 → a = b := by
  intro a ha b hb hab
  cases a with
  | mk ka ca =>
    cases b with
    | mk kb cb =>
      simp only at hab
      subst hab
      have h₁ := (mem_counter l ka ca).mp ha
      have h₂ := (mem_counter l ka cb).mp hb
      rw [h₁.2, h₂.2]

/-! #### dict lemmas -/

theorem dget_dictInsert (m : List (String × String)) (j v k : String) :
    dget (dictInsert m j v) k = if k = j then some v else dget m k := by
  unfold dictInsert dget
  by_cases hj : m.any (fun q => q.1 == j) = true
  · simp only [hj, if_true]
    rw [find?_fst_map m _ (fun q => by by_cases h : q.1 == j <;> simp [h]) k]
    cases hf : m.find? (fun q => q.1 == k) with
    | none =>
      simp only [hf, Option.map_none']
      by_cases hkj : k = j
      · subst hkj
        rw [List.any_eq_true] at hj
        obtain ⟨q, hq, hq2⟩ := hj
        rw [List.find?_eq_none] at hf
        exact absurd hq2 (by simpa using hf q hq)
      · simp [hkj]
    | some q =>
      have hq1 : q.1 = k := by simpa using List.find?_some hf
      simp only [hf, Option.map_some']
      by_cases hkj : k = j
      · subst hkj
        simp [hq1]
      · simp [hq1, hkj]
  · rw [if_neg hj, List.find?_append]
    by_cases hkj : k = j
    · subst hkj
      have hnone : m.find? (fun q => q.1 == k) = none := by
        rw [List.find?_eq_none]
        intro q hq hc
        rw [List.any_eq_true] at hj
        exact hj ⟨q, hq, hc⟩
      simp [hnone]
    · have hjk : (j == k) = false := by
        simp only [beq_eq_false_iff_ne, ne_eq]
        exact fun h => hkj h.symm
      have hone : List.find? (fun q => q.1 == k) [(j, v)] = none := by
        simp [List.find?, hjk]
      simp [hone, hkj]

theorem lastVal_cons (p : String × String) (ps : List (String × String))
    (k : String) :
    lastVal (p :: ps) k =
      (lastVal ps k).or (if p.1 == k then some p.2 else none) := by
  unfold lastVal
  rw [List.reverse_cons, List.find?_append]
  cases hf : ps.reverse.find? (fun q => q.1 == k) with
  | none =>
    by_cases hp : p.1 = k
    · simp [List.find?, hp]
    · have hpb : (p.1 == k) = false := by simpa using hp
      simp [List.find?, hpb, hp]
  | some q => simp

theorem dget_foldl_dictInsert :
    ∀ (ps : List (String × String)) (m : List (String × String)) (k : String),
    dget (ps.foldl (fun m q => dictInsert m q.1 q.2) m) k =
      (lastVal ps k).or (dget m k)
  | [], m, k => by simp [lastVal]
  | p :: ps, m, k => by
    simp only [List.foldl_cons]
    rw [dget_foldl_dictInsert ps (dictInsert m p.1 p.2) k, dget_dictInsert,
      lastVal_cons]
    cases hl : lastVal ps k with
    | some v => simp
    | none =>
      by_cases hk : k = p.1
      · subst hk
        simp
      · have : (p.1 == k) = false := by simpa using fun h => hk h.symm
        simp [hk, this]

theorem dget_dictOf (ps : List (String × String)) (k : String) :
    dget (dictOf ps) k = lastVal ps k := by
  unfold dictOf
  rw [dget_foldl_dictInsert]
  simp [dget]

theorem hasKey_iff (m : List (String × String)) (k : String) :
    hasKey m k = true ↔ k ∈ m.map (fun q => q.1) := by
  simp only [hasKey, List.any_eq_true, List.mem_map]
  constructor
  · intro ⟨q, hq, he⟩
    exact ⟨q, hq, by simpa using he.symm⟩
  · intro ⟨q, hq, he⟩
    exact ⟨q, hq, by simp [he]⟩

theorem mem_union_keys (ra rb : List (String × String)) (k : String) :
    k ∈ union_keys ra rb ↔ (hasKey ra k = true ∨ hasKey rb k = true) := by
  unfold union_keys
  rw [List.mem_dedup, List.mem_append, hasKey_iff, hasKey_iff]

/-! ### Claim C3: the outcome-rank model and the classifier -/

/-- Claim C3: `classify_change` returns `Improvement` when
`rank(old) > rank(new)`, `Regression` when `rank(old) < rank(new)`,
`Lateral` when the ranks agree but the labels differ, and `No Change`
when the labels agree, where rank maps `PASS` to 0, `OK` to 1, `FAIL`,
`TIMEOUT`, `ERROR` and `CRASH` to 2, and every other label to 3 (no
error for unknown labels: the rank lookup is total). -/
theorem claim_C3 :
    (rankGet PASS = 0 ∧ rankGet OK = 1 ∧ rankGet FAIL = 2 ∧
     rankGet TIMEOUT = 2 ∧ rankGet ERROR = 2 ∧ rankGet CRASH = 2) ∧
    (∀ s : String, s ≠ PASS → s ≠ OK → s ≠ FAIL → s ≠ TIMEOUT →
      s ≠ ERROR → s ≠ CRASH → rankGet s = 3) ∧
    (∀ old_status new_status : String,
      (rankGet old_status > rankGet new_status →
        (classify_change old_status new_status).1 = IMPROVEMENT) ∧
      (rankGet old_status < rankGet new_status →
        (classify_change old_status new_status).1 = REGRESSION) ∧
      (rankGet old_status = rankGet new_status → old_status ≠ new_status →
        (classify_change old_status new_status).1 = LATERAL) ∧
      (old_status = new_status →
        (classify_change old_status new_status).1 = NO_CHANGE)) := by
  refine ⟨by decide, ?_, ?_⟩
  · intro s h1 h2 h3 h4 h5 h6
    have e1 : (PASS == s) = false := by simpa using fun h => h1 h.symm
    have e2 : (OK == s) = false := by simpa using fun h => h2 h.symm
    have e3 : (FAIL == s) = false := by simpa using fun h => h3 h.symm
    have e4 : (TIMEOUT == s) = false := by simpa using fun h => h4 h.symm
    have e5 : (ERROR == s) = false := by simpa using fun h => h5 h.symm
    have e6 : (CRASH == s) = false := by simpa using fun h => h6 h.symm
    simp [rankGet, STATUS_RANK, List.find?, e1, e2, e3, e4, e5, e6]
  · intro old_status new_status
    refine ⟨?_, ?_, ?_, ?_⟩
    · intro h
      simp [classify_change, h]
    · intro h
      have hng : ¬ rankGet old_status > rankGet new_status := Nat.lt_asymm h
      simp [classify_change, h, hng]
    · intro h hne
      have hb : (old_status == new_status) = false := by simpa using hne
      simp [classify_change, h, hb]
    · intro h
      subst h
      simp [classify_change]

theorem claim_C3_witness :
    rankGet "FLAKY" = 3 ∧
    (classify_change FAIL CRASH).1 = LATERAL ∧
    (classify_change PASS FAIL).1 = REGRESSION ∧
    (classify_change CRASH OK).1 = IMPROVEMENT ∧
    (classify_change TIMEOUT TIMEOUT).1 = NO_CHANGE :=
  ⟨claim_C3.2.1 "FLAKY" (by decide) (by decide) (by decide) (by decide)
      (by decide) (by decide),
   (claim_C3.2.2 FAIL CRASH).2.2.1 (by decide) (by decide),
   (claim_C3.2.2 PASS FAIL).2.1 (by decide),
   (claim_C3.2.2 CRASH OK).1 (by decide),
   (claim_C3.2.2 TIMEOUT TIMEOUT).2.2.2 rfl⟩

/-! ### Claim C9: duplicate keys -/

/-- Claim C9 counterexample: the implementation neither asserts nor
rejects duplicate flat keys — `get_results` silently keeps only the last
occurrence's outcome.  Two tests with the same identifier (`PASS` then
`FAIL`) yield the single mapping `t ↦ FAIL`, and a test with two
same-named subtests yields only the later subtest's outcome; nothing
fails. -/
theorem claim_C9_counterexample :
    get_results ⟨[⟨"t", PASS, []⟩, ⟨"t", FAIL, []⟩]⟩ false = [("t", FAIL)] ∧
    get_results ⟨[⟨"p", OK, [⟨"s", PASS⟩, ⟨"s", CRASH⟩]⟩]⟩ true =
      [("p::s", CRASH)] := by
  constructor <;> rfl

/-- Claim C9 (amended): on duplicate flat keys within one scope the
implementation silently overwrites: the outcome `get_results` exposes
for a key is the outcome of the key's **last** occurrence in the input,
at both scopes, and no error path exists (the function is total). -/
theorem claim_C9_amended (p : WPTReportParser) (k : String) :
    dget (get_results p false) k = lastVal (testPairs p) k ∧
    dget (get_results p true) k = lastVal (subtestPairs p) k := by
  constructor
  · rw [show get_results p false = dictOf (testPairs p) from rfl, dget_dictOf]
  · rw [show get_results p true = dictOf (subtestPairs p) from rfl, dget_dictOf]

/-! ### Claim C8: malformed documents -/

theorem except_bind_error {ε α β : Type} (e : ε) (f : α → Except ε β) :
    (Except.error e >>= f) = Except.error e := rfl

theorem except_bind_ok {ε α β : Type} (a : α) (f : α → Except ε β) :
    (Except.ok a >>= f) = f a := rfl

theorem rawPairs_error : ∀ (rs : List RawTest) (r : RawTest), r ∈ rs →
    (r.test = none ∨ r.status = none) →
    ∃ e, rawPairs rs = Except.error e
  | [], r, hr, _ => absurd hr (by simp)
  | x :: xs, r, hr, hm => by
    cases List.mem_cons.mp hr with
    | inl he =>
      subst he
      have hx : ∃ e, rawPair r = Except.error e := by
        cases hm with
        | inl h =>
          exact ⟨"KeyError: test",
            by simp [rawPair, h, rawField, except_bind_error]⟩
        | inr h =>
          cases ht : r.test with
          | none =>
            exact ⟨"KeyError: test",
              by simp [rawPair, ht, rawField, except_bind_error]⟩
          | some t =>
            exact ⟨"KeyError: status",
              by simp [rawPair, ht, h, rawField, except_bind_ok]⟩
      obtain ⟨e, he⟩ := hx
      exact ⟨e, by simp [rawPairs, he, except_bind_error]⟩
    | inr hmem =>
      obtain ⟨e, he⟩ := rawPairs_error xs r hmem hm
      cases hp : rawPair x with
      | error e2 => exact ⟨e2, by simp [rawPairs, hp, except_bind_error]⟩
      | ok q =>
        exact ⟨e, by simp [rawPairs, hp, he, except_bind_ok, except_bind_error]⟩

/-- Claim C8 counterexample: a document without a `results` collection is
**not** rejected — `__init__` defaults it to the empty list
(`self.data.get("results", [])`) and the outcome-mapping succeeds with an
empty mapping, i.e. the document is treated as an empty report. -/
theorem claim_C8_counterexample :
    initResults ⟨none⟩ = [] ∧
    get_results_raw (initResults ⟨none⟩) = Except.ok [] :=
  ⟨rfl, rfl⟩

/-- Claim C8 (amended): a test entry missing its required `test` or
`status` field makes the outcome-mapping operation fail with a
propagated `KeyError` (never silently dropped); but a document missing
the `results` collection is treated as an empty report, not as an
error. -/
theorem claim_C8_amended (rs : List RawTest) (r : RawTest) (hr : r ∈ rs)
    (hm : r.test = none ∨ r.status = none) :
    ∃ e, get_results_raw rs = Except.error e := by
  obtain ⟨e, he⟩ := rawPairs_error rs r hr hm
  exact ⟨e, by simp [get_results_raw, he, except_bind_error]⟩

theorem claim_C8_witness :
    ∃ e, get_results_raw [⟨some "t", none, none⟩] = Except.error e :=
  claim_C8_amended [⟨some "t", none, none⟩] ⟨some "t", none, none⟩
    (by simp) (Or.inr rfl)

/-! ### Claim C2: the diff partition -/

theorem count_filter_nodup {u : List String} (hnd : u.Nodup)
    (pf : String → Bool) (k : String) :
    (u.filter pf).count k = if k ∈ u ∧ pf k = true then 1 else 0 := by
  by_cases h : k ∈ u.filter pf
  · rw [List.count_eq_one_of_mem (hnd.filter pf) h]
    rw [List.mem_filter] at h
    simp [h.1, h.2]
  · rw [List.count_eq_zero_of_not_mem h]
    rw [List.mem_filter] at h
    by_cases h1 : k ∈ u <;> by_cases h2 : pf k = true <;> simp_all

theorem keys_of_pairs {β : Type} (u : List String) (g : String → β) :
    ((u.map (fun t => (t, g t))).map (fun q : String × β => q.1)) = u := by
  rw [List.map_map,
    show ((fun q : String × β => q.1) ∘ fun t => (t, g t)) = id from rfl,
    List.map_id]

/-- The diff partition over an arbitrary duplicate-free enumeration of
the union of the two key sets (Python's set iteration order is
arbitrary): membership with the claimed outcome pairings, the per-list
key counts, and the exactly-one-or-none sum. -/
theorem compare_results_ord_partition (ra rb : List (String × String))
    (u : List String) (hnd : u.Nodup)
    (hmem : ∀ t, t ∈ u ↔ (hasKey ra t = true ∨ hasKey rb t = true))
    (k : String) (hk : hasKey ra k = true ∨ hasKey rb k = true) :
    ((hasKey ra k = false ∧ hasKey rb k = true) →
      (k, dgetD rb k) ∈ (compare_results_ord u ra rb).new ∧
      ((compare_results_ord u ra rb).new.map (fun q => q.1)).count k = 1 ∧
      ((compare_results_ord u ra rb).removed.map (fun q => q.1)).count k = 0 ∧
      ((compare_results_ord u ra rb).status_changes.map
        (fun q => q.1)).count k = 0) ∧
    ((hasKey ra k = true ∧ hasKey rb k = false) →
      (k, dgetD ra k) ∈ (compare_results_ord u ra rb).removed ∧
      ((compare_results_ord u ra rb).removed.map (fun q => q.1)).count k = 1 ∧
      ((compare_results_ord u ra rb).new.map (fun q => q.1)).count k = 0 ∧
      ((compare_results_ord u ra rb).status_changes.map
        (fun q => q.1)).count k = 0) ∧
    ((hasKey ra k = true ∧ hasKey rb k = true ∧ dgetD ra k ≠ dgetD rb k) →
      (k, dgetD ra k, dgetD rb k) ∈
        (compare_results_ord u ra rb).status_changes ∧
      ((compare_results_ord u ra rb).status_changes.map
        (fun q => q.1)).count k = 1 ∧
      ((compare_results_ord u ra rb).new.map (fun q => q.1)).count k = 0 ∧
      ((compare_results_ord u ra rb).removed.map (fun q => q.1)).count k = 0) ∧
    ((hasKey ra k = true ∧ hasKey rb k = true ∧ dgetD ra k = dgetD rb k) →
      ((compare_results_ord u ra rb).new.map (fun q => q.1)).count k = 0 ∧
      ((compare_results_ord u ra rb).removed.map (fun q => q.1)).count k = 0 ∧
      ((compare_results_ord u ra rb).status_changes.map
        (fun q => q.1)).count k = 0) ∧
    (((compare_results_ord u ra rb).new.map (fun q => q.1)).count k +
       ((compare_results_ord u ra rb).removed.map (fun q => q.1)).count k +
       ((compare_results_ord u ra rb).status_changes.map
         (fun q => q.1)).count k =
      if hasKey ra k = true ∧ hasKey rb k = true ∧ dgetD ra k = dgetD rb k
      then 0 else 1) := by
  have hku : k ∈ u := (hmem k).mpr hk
  have hnew : (compare_results_ord u ra rb).new.map (fun q => q.1) =
      u.filter (fun t => !hasKey ra t) :=
    keys_of_pairs _ _
  have hrem : (compare_results_ord u ra rb).removed.map (fun q => q.1) =
      u.filter (fun t => !hasKey rb t) :=
    keys_of_pairs _ _
  have hch : (compare_results_ord u ra rb).status_changes.map (fun q => q.1) =
      u.filter (fun t =>
        hasKey ra t && hasKey rb t && !(dgetD ra t == dgetD rb t)) := by
    rw [show (compare_results_ord u ra rb).status_changes =
      (u.filter (fun t =>
        hasKey ra t && hasKey rb t && !(dgetD ra t == dgetD rb t))).map
        (fun t => (t, dgetD ra t, dgetD rb t)) from rfl]
    exact keys_of_pairs _ _
  refine ⟨?_, ?_, ?_, ?_, ?_⟩
  · intro ⟨ha, hb⟩
    refine ⟨?_, ?_, ?_, ?_⟩
    · exact List.mem_map.mpr ⟨k,
        List.mem_filter.mpr ⟨hku, by simp [ha]⟩, rfl⟩
    · rw [hnew, count_filter_nodup hnd]
      simp [hku, ha]
    · rw [hrem, count_filter_nodup hnd]
      simp [hb]
    · rw [hch, count_filter_nodup hnd]
      simp [ha]
  · intro ⟨ha, hb⟩
    refine ⟨?_, ?_, ?_, ?_⟩
    · exact List.mem_map.mpr ⟨k,
        List.mem_filter.mpr ⟨hku, by simp [hb]⟩, rfl⟩
    · rw [hrem, count_filter_nodup hnd]
      simp [hku, hb]
    · rw [hnew, count_filter_nodup hnd]
      simp [ha]
    · rw [hch, count_filter_nodup hnd]
      simp [hb]
  · intro ⟨ha, hb, hne⟩
    have hbne : (dgetD ra k == dgetD rb k) = false := by simpa using hne
    refine ⟨?_, ?_, ?_, ?_⟩
    · exact List.mem_map.mpr ⟨k,
        List.mem_filter.mpr ⟨hku, by simp [ha, hb, hbne]⟩, rfl⟩
    · rw [hch, count_filter_nodup hnd]
      simp [hku, ha, hb, hbne]
    · rw [hnew, count_filter_nodup hnd]
      simp [ha]
    · rw [hrem, count_filter_nodup hnd]
      simp [hb]
  · intro ⟨ha, hb, heq⟩
    refine ⟨?_, ?_, ?_⟩
    · rw [hnew, count_filter_nodup hnd]
      simp [ha]
    · rw [hrem, count_filter_nodup hnd]
      simp [hb]
    · rw [hch, count_filter_nodup hnd]
      simp [heq]
  · rw [hnew, hrem, hch, count_filter_nodup hnd, count_filter_nodup hnd,
      count_filter_nodup hnd]
    cases hA : hasKey ra k with
    | false =>
      cases hB : hasKey rb k with
      | false =>
        rw [hA, hB] at hk
        rcases hk with h | h <;> exact absurd h (by simp)
      | true => simp [hku, hA, hB]
    | true =>
      cases hB : hasKey rb k with
      | false => simp [hku, hA, hB]
      | true =>
        by_cases heq : dgetD ra k = dgetD rb k
        · simp [hku, hA, hB, heq]
        · have hbne : (dgetD ra k == dgetD rb k) = false := by simpa using heq
          simp [hku, hA, hB, heq, hbne]

/-- Claim C2: for every pair of outcome mappings `A`, `B`, every key of
the union of their key sets lands in **exactly one** of the three result
lists of the diff — `new` (keys only in `B`, paired with `B`'s outcome),
`removed` (keys only in `A`, paired with `A`'s outcome),
`status_changes` (keys in both whose outcomes differ, as the triple
`(key, old, new)`) — or in **none** of them exactly when the two
outcomes agree: the three per-list key counts sum to 1, or to 0 in the
equal-outcome case.  Proved for the program's `compare_results` and,
since Python iterates an unordered set, for `compare_results_ord` under
every permutation of the union key enumeration. -/
theorem claim_C2 (ra rb : List (String × String)) (all_tests : List String)
    (hall : all_tests.Perm (union_keys ra rb)) (k : String)
    (hk : hasKey ra k = true ∨ hasKey rb k = true) :
    let an := compare_results ra rb
    let anG := compare_results_ord all_tests ra rb
    ((hasKey ra k = false ∧ hasKey rb k = true) →
      (k, dgetD rb k) ∈ an.new ∧
      (an.new.map (fun q => q.1)).count k = 1 ∧
      (an.removed.map (fun q => q.1)).count k = 0 ∧
      (an.status_changes.map (fun q => q.1)).count k = 0) ∧
    ((hasKey ra k = true ∧ hasKey rb k = false) →
      (k, dgetD ra k) ∈ an.removed ∧
      (an.removed.map (fun q => q.1)).count k = 1 ∧
      (an.new.map (fun q => q.1)).count k = 0 ∧
      (an.status_changes.map (fun q => q.1)).count k = 0) ∧
    ((hasKey ra k = true ∧ hasKey rb k = true ∧ dgetD ra k ≠ dgetD rb k) →
      (k, dgetD ra k, dgetD rb k) ∈ an.status_changes ∧
      (an.status_changes.map (fun q => q.1)).count k = 1 ∧
      (an.new.map (fun q => q.1)).count k = 0 ∧
      (an.removed.map (fun q => q.1)).count k = 0) ∧
    ((hasKey ra k = true ∧ hasKey rb k = true ∧ dgetD ra k = dgetD rb k) →
      (an.new.map (fun q => q.1)).count k = 0 ∧
      (an.removed.map (fun q => q.1)).count k = 0 ∧
      (an.status_changes.map (fun q => q.1)).count k = 0) ∧
    ((an.new.map (fun q => q.1)).count k +
       (an.removed.map (fun q => q.1)).count k +
       (an.status_changes.map (fun q => q.1)).count k =
      if hasKey ra k = true ∧ hasKey rb k = true ∧ dgetD ra k = dgetD rb k
      then 0 else 1) ∧
    ((anG.new.map (fun q => q.1)).count k +
       (anG.removed.map (fun q => q.1)).count k +
       (anG.status_changes.map (fun q => q.1)).count k =
      if hasKey ra k = true ∧ hasKey rb k = true ∧ dgetD ra k = dgetD rb k
      then 0 else 1) ∧
    ((hasKey ra k = false ∧ hasKey rb k = true) →
      (k, dgetD rb k) ∈ anG.new) ∧
    ((hasKey ra k = true ∧ hasKey rb k = false) →
      (k, dgetD ra k) ∈ anG.removed) ∧
    ((hasKey ra k = true ∧ hasKey rb k = true ∧ dgetD ra k ≠ dgetD rb k) →
      (k, dgetD ra k, dgetD rb k) ∈ anG.status_changes) := by
  intro an anG
  have hndU : (union_keys ra rb).Nodup := by
    unfold union_keys
    exact List.nodup_dedup _
  have hndA : all_tests.Nodup := hall.nodup_iff.mpr hndU
  have hmemA : ∀ t, t ∈ all_tests ↔
      (hasKey ra t = true ∨ hasKey rb t = true) :=
    fun t => hall.mem_iff.trans (mem_union_keys ra rb t)
  have hU := compare_results_ord_partition ra rb (union_keys ra rb) hndU
    (mem_union_keys ra rb) k hk
  have hA := compare_results_ord_partition ra rb all_tests hndA hmemA k hk
  exact ⟨hU.1, hU.2.1, hU.2.2.1, hU.2.2.2.1, hU.2.2.2.2,
    hA.2.2.2.2,
    fun h => (hA.1 h).1, fun h => (hA.2.1 h).1, fun h => (hA.2.2.1 h).1⟩

theorem claim_C2_witness :
    (("b", FAIL) ∈ (compare_results [("a", PASS)] [("a", PASS), ("b", FAIL)]).new ∧
      ((compare_results [("a", PASS)] [("a", PASS), ("b", FAIL)]).new.map
        (fun q => q.1)).count "b" = 1 ∧
      ((compare_results [("a", PASS)] [("a", PASS), ("b", FAIL)]).removed.map
        (fun q => q.1)).count "b" = 0 ∧
      ((compare_results [("a", PASS)] [("a", PASS), ("b", FAIL)]).status_changes.map
        (fun q => q.1)).count "b" = 0) ∧
    ("b", FAIL) ∈
      (compare_results_ord ["b", "a"] [("a", PASS)]
        [("a", PASS), ("b", FAIL)]).new :=
  ⟨(claim_C2 [("a", PASS)] [("a", PASS), ("b", FAIL)] ["b", "a"]
      (by decide) "b" (Or.inr (by decide))).1 ⟨by decide, by decide⟩,
   (claim_C2 [("a", PASS)] [("a", PASS), ("b", FAIL)] ["b", "a"]
      (by decide) "b" (Or.inr (by decide))).2.2.2.2.2.2.1
      ⟨by decide, by decide⟩⟩

/-! ### Claim C6: detail-list ordering -/

/-- Claim C6 counterexample: `detailed_list` does **not** sort by
`(rank, flat key)`.  The sort key in `get_details` is
`(rank, x["test"])` — the parent test, not `parent::child` — and the
sort is stable, so two subtests of the same parent with equal-rank
outcomes keep input order: with subtests `b` then `a` (both `PASS`), the
output is `t::b` before `t::a`, which violates the claimed ascending
`(rank, flat key)` order.  (Also, the comparator's group lists sort by
`(key, outcome)` tuples, not rank-first: an unknown-status entry with a
smaller key sorts before a `FAIL` entry of lower rank.) -/
theorem claim_C6_counterexample :
    get_details ⟨[⟨"t", OK, [⟨"b", PASS⟩, ⟨"a", PASS⟩]⟩]⟩ true =
      [⟨"t", some "b", PASS⟩, ⟨"t", some "a", PASS⟩] ∧
    ¬ List.Sorted (pyKeyRel claimedDetKey)
        (get_details ⟨[⟨"t", OK, [⟨"b", PASS⟩, ⟨"a", PASS⟩]⟩]⟩ true) ∧
    pySorted pairKey [("b", FAIL), ("a", "ODDITY")] =
      [("a", "ODDITY"), ("b", FAIL)] ∧
    rankGet FAIL < rankGet "ODDITY" := by
  refine ⟨rfl, by decide, rfl, by decide⟩

/-- Claim C6 (amended): `detailed_list` returns the entries stably
sorted ascending by the pair `(rank(outcome), parent test identifier)` —
for subtest entries the tie-break key is the parent test, not the
`parent::child` flat key, and entries whose keys tie keep input order —
and it is a permutation of the underlying details; the comparator's
detail lists are sorted lexically by the full `(key, outcome)` tuple
(or `(key, old, new)` for change lists) within each rendered group. -/
theorem claim_C6_amended :
    (∀ (p : WPTReportParser) (fs : Bool),
      List.Sorted (pyKeyRel detKey) (get_details p fs) ∧
      (get_details p fs).Perm (rawDetails p fs)) ∧
    (∀ category : List (String × String),
      List.Sorted (pyKeyRel pairKey) (pySorted pairKey category) ∧
      (pySorted pairKey category).Perm category) ∧
    (∀ changes : List (String × String × String),
      List.Sorted (pyKeyRel tripleKey) (pySorted tripleKey changes) ∧
      (pySorted tripleKey changes).Perm changes) :=
  ⟨fun p fs => ⟨pySorted_sorted detKey _, pySorted_perm detKey _⟩,
   fun category => ⟨pySorted_sorted pairKey _, pySorted_perm pairKey _⟩,
   fun changes => ⟨pySorted_sorted tripleKey _, pySorted_perm tripleKey _⟩⟩

/-! ### Claim C7: truncation -/

/-- Claim C7: for every rendered detail list whose post-filter, sorted
population has `N` entries, if `N > max_details` the output shows
exactly `max_details` entries followed by exactly one remainder marker
stating `N - max_details`; if `N ≤ max_details` all `N` entries appear
and no marker is emitted.  Stated for each of the three truncating
renderers: the comparator's pass/non-pass groups, its change lists, and
the single-file detail section. -/
theorem claim_C7 :
    (∀ (max_details : Nat) (color label : String)
        (category : List (String × String)), category ≠ [] →
      (max_details < category.length →
        group_lines max_details color label category =
          ("    " ++ label ++ ":") ::
          (((pySorted pairKey category).take max_details).map (fun q =>
            "      " ++ color ++ q.1 ++ " (" ++ q.2 ++ ")" ++ RESET) ++
          ["      " ++ color ++ "... and " ++
            toString (category.length - max_details) ++ " more" ++ RESET]) ∧
        ((pySorted pairKey category).take max_details).length = max_details) ∧
      (category.length ≤ max_details →
        group_lines max_details color label category =
          ("    " ++ label ++ ":") ::
          (pySorted pairKey category).map (fun q =>
            "      " ++ color ++ q.1 ++ " (" ++ q.2 ++ ")" ++ RESET) ∧
        (pySorted pairKey category).length = category.length)) ∧
    (∀ (max_details : Nat) (sc : List (String × String × String))
        (ct color : String), changesOf sc ct ≠ [] →
      (max_details < (changesOf sc ct).length →
        add_change_details_lines max_details sc ct color =
          ("\n  " ++ ct ++ "s:") ::
          (((pySorted tripleKey (changesOf sc ct)).take max_details).map (fun t =>
            "    " ++ color ++ t.1 ++ ": " ++ t.2.2 ++ RESET) ++
          ["    " ++ color ++ "... and " ++
            toString ((changesOf sc ct).length - max_details) ++ " more" ++ RESET]) ∧
        ((pySorted tripleKey (changesOf sc ct)).take max_details).length =
          max_details) ∧
      ((changesOf sc ct).length ≤ max_details →
        add_change_details_lines max_details sc ct color =
          ("\n  " ++ ct ++ "s:") ::
          (pySorted tripleKey (changesOf sc ct)).map (fun t =>
            "    " ++ color ++ t.1 ++ ": " ++ t.2.2 ++ RESET))) ∧
    (∀ (max_details : Nat) (title : String) (details : List DetailEntry),
      (max_details < details.length →
        single_details_lines max_details title details =
          ("\n" ++ BOLD ++ title ++ RESET ++ ":") ::
          ((details.take max_details).map (fun item =>
            detailLine
              (if item.status == PASS || item.status == OK then GREEN else RED)
              item) ++
          ["  ... and " ++ toString (details.length - max_details) ++ " more"]) ∧
        (details.take max_details).length = max_details) ∧
      (details.length ≤ max_details →
        single_details_lines max_details title details =
          ("\n" ++ BOLD ++ title ++ RESET ++ ":") ::
          details.map (fun item =>
            detailLine
              (if item.status == PASS || item.status == OK then GREEN else RED)
              item))) := by
  refine ⟨?_, ?_, ?_⟩
  · intro max_details color label category hne
    have hlen : (pySorted pairKey category).length = category.length :=
      (pySorted_perm pairKey category).length_eq
    have hemp : category.isEmpty = false := by
      cases category with
      | nil => exact absurd rfl hne
      | cons a t => rfl
    constructor
    · intro h
      constructor
      · simp [group_lines, hemp, h]
      · rw [List.length_take, hlen]
        omega
    · intro h
      have hng : ¬ category.length > max_details := by omega
      constructor
      · simp [group_lines, hemp, hng, List.take_of_length_le (hlen ▸ h)]
      · exact hlen
  · intro max_details sc ct color hne
    have hlen : (pySorted tripleKey (changesOf sc ct)).length =
        (changesOf sc ct).length :=
      (pySorted_perm tripleKey (changesOf sc ct)).length_eq
    have hemp : (changesOf sc ct).isEmpty = false := by
      cases hcc : changesOf sc ct with
      | nil => exact absurd hcc hne
      | cons a t => rfl
    constructor
    · intro h
      constructor
      · simp [add_change_details_lines, hemp, h]
      · rw [List.length_take, hlen]
        omega
    · intro h
      have hng : ¬ (changesOf sc ct).length > max_details := by omega
      simp [add_change_details_lines, hemp, hng,
        List.take_of_length_le (hlen ▸ h)]
  · intro max_details title details
    constructor
    · intro h
      constructor
      · simp [single_details_lines, h]
      · rw [List.length_take]
        omega
    · intro h
      have hng : ¬ details.length > max_details := by omega
      simp [single_details_lines, hng, List.take_of_length_le h]

theorem claim_C7_witness :
    (group_lines 1 RED "Non-passing" [("a", FAIL), ("b", FAIL)] =
      ("    " ++ "Non-passing" ++ ":") ::
      (((pySorted pairKey [("a", FAIL), ("b", FAIL)]).take 1).map (fun q =>
        "      " ++ RED ++ q.1 ++ " (" ++ q.2 ++ ")" ++ RESET) ++
      ["      " ++ RED ++ "... and " ++ toString (2 - 1) ++ " more" ++ RESET]) ∧
      ((pySorted pairKey [("a", FAIL), ("b", FAIL)]).take 1).length = 1) ∧
    (group_lines 5 RED "Non-passing" [("a", FAIL), ("b", FAIL)] =
      ("    " ++ "Non-passing" ++ ":") ::
      (pySorted pairKey [("a", FAIL), ("b", FAIL)]).map (fun q =>
        "      " ++ RED ++ q.1 ++ " (" ++ q.2 ++ ")" ++ RESET) ∧
      (pySorted pairKey [("a", FAIL), ("b", FAIL)]).length = 2) :=
  ⟨(claim_C7.1 1 RED "Non-passing" [("a", FAIL), ("b", FAIL)]
      (by decide)).1 (by decide),
   (claim_C7.1 5 RED "Non-passing" [("a", FAIL), ("b", FAIL)]
      (by decide)).2 (by decide)⟩

/-! ### Line-shape lemmas for `format_analysis`

Every line the analysis renderer emits either starts with two spaces
(entries, tallies, counts, markers), or is the title line (newline then
the ANSI bold escape), or is one of the four section headers (newline
then a space).  This pins down exactly when each header can occur. -/

theorem take2_pre (pre rest : String) (c₁ c₂ : Char)
    (h1 : pre.data.take 2 = [c₁, c₂]) (h2 : 2 ≤ pre.data.length) :
    ((pre ++ rest).data.take 2 = [c₁, c₂]) ∧ 2 ≤ (pre ++ rest).data.length := by
  rw [String.data_append]
  refine ⟨?_, ?_⟩
  · rw [List.take_append_of_le_length h2, h1]
  · rw [List.length_append]
    omega

theorem take2_cat (pre : String) (rest : List String) (c₁ c₂ : Char)
    (h1 : pre.data.take 2 = [c₁, c₂]) (h2 : 2 ≤ pre.data.length) :
    (rest.foldl (fun a b => a ++ b) pre).data.take 2 = [c₁, c₂] := by
  induction rest generalizing pre with
  | nil => exact h1
  | cons x xs ih =>
    exact ih (pre ++ x) (take2_pre pre x c₁ c₂ h1 h2).1
      (take2_pre pre x c₁ c₂ h1 h2).2

theorem ne_of_take2 {s t : String} {A B : List Char} (hs : s.data.take 2 = A)
    (ht : t.data.take 2 = B) (hne : A ≠ B) : s ≠ t := fun he =>
  hne (by rw [← hs, ← ht, he])

theorem mem_tally_take2 {items : List (String × String)} {s : String}
    (h : s ∈ status_tally_lines items) : s.data.take 2 = [' ', ' '] := by
  obtain ⟨q, _, he⟩ := List.mem_map.mp h
  rw [← he]
  exact take2_cat "    "
    [q.1, ": ", if q.1 == PASS || q.1 == OK then GREEN else RED,
     toString q.2, RESET] ' ' ' ' (by decide) (by decide)

theorem mem_group_take2 {max_details : Nat} {color label : String}
    {category : List (String × String)} {s : String}
    (h : s ∈ group_lines max_details color label category) :
    s.data.take 2 = [' ', ' '] := by
  unfold group_lines at h
  by_cases hemp : category.isEmpty = true
  · rw [if_pos hemp] at h
    exact absurd h (by simp)
  · rw [if_neg hemp] at h
    rcases List.mem_cons.mp h with he | hm
    · rw [he]
      exact take2_cat "    " [label, ":"] ' ' ' ' (by decide) (by decide)
    · rcases List.mem_append.mp hm with hm1 | hm2
      · obtain ⟨q, _, he⟩ := List.mem_map.mp hm1
        rw [← he]
        exact take2_cat "      " [color, q.1, " (", q.2, ")", RESET] ' ' ' '
          (by decide) (by decide)
      · by_cases htr : decide (category.length > max_details) = true
        · rw [if_pos htr] at hm2
          rcases List.mem_singleton.mp hm2 with he
          rw [he]
          exact take2_cat "      "
            [color, "... and ", toString (category.length - max_details),
             " more", RESET] ' ' ' ' (by decide) (by decide)
        · rw [if_neg htr] at hm2
          exact absurd hm2 (by simp)

theorem mem_add_details_shape {max_details : Nat}
    {items : List (String × String)} {ct s : String}
    (h : s ∈ add_details_lines max_details items ct) :
    (s = "\n  " ++ pyCapitalize ct ++ " Details:" ∧ items ≠ []) ∨
    s.data.take 2 = [' ', ' '] := by
  unfold add_details_lines at h
  by_cases hemp : items.isEmpty = true
  · rw [if_pos hemp] at h
    exact absurd h (by simp)
  · rw [if_neg hemp] at h
    rcases List.mem_cons.mp h with he | hm
    · exact Or.inl ⟨he, by simpa [List.isEmpty_iff] using hemp⟩
    · rcases List.mem_append.mp hm with hm1 | hm2
      · exact Or.inr (mem_group_take2 hm1)
      · exact Or.inr (mem_group_take2 hm2)

theorem mem_changed_take2 {sc : List (String × String × String)} {s : String}
    (h : s ∈ changed_status_lines sc) : s.data.take 2 = [' ', ' '] := by
  unfold changed_status_lines at h
  rcases List.mem_cons.mp h with he | hm
  · rw [he]
    decide
  · obtain ⟨q, _, he⟩ := List.mem_filterMap.mp hm
    have he' : (if ((classify_change (arrowParts q.1).1 (arrowParts q.1).2).1 ==
          NO_CHANGE) = true then none
        else some ("    " ++ q.1 ++ ": " ++
          (classify_change (arrowParts q.1).1 (arrowParts q.1).2).2 ++
          toString q.2 ++ " " ++ RESET)) = some s := he
    by_cases hc : ((classify_change (arrowParts q.1).1 (arrowParts q.1).2).1 ==
        NO_CHANGE) = true
    · rw [if_pos hc] at he'
      exact absurd he' (by simp)
    · rw [if_neg hc] at he'
      rw [← Option.some_inj.mp he']
      exact take2_cat "    "
        [q.1, ": ", (classify_change (arrowParts q.1).1 (arrowParts q.1).2).2,
         toString q.2, " ", RESET] ' ' ' ' (by decide) (by decide)

theorem mem_change_details_shape {max_details : Nat}
    {sc : List (String × String × String)} {ct color s : String}
    (h : s ∈ add_change_details_lines max_details sc ct color) :
    (s = "\n  " ++ ct ++ "s:" ∧ changesOf sc ct ≠ []) ∨
    s.data.take 2 = [' ', ' '] := by
  unfold add_change_details_lines at h
  by_cases hemp : (changesOf sc ct).isEmpty = true
  · rw [if_pos hemp] at h
    exact absurd h (by simp)
  · rw [if_neg hemp] at h
    rcases List.mem_cons.mp h with he | hm
    · exact Or.inl ⟨he, by simpa [List.isEmpty_iff] using hemp⟩
    · right
      rcases List.mem_append.mp hm with hm1 | hm2
      · obtain ⟨t, _, he⟩ := List.mem_map.mp hm1
        rw [← he]
        exact take2_cat "    " [color, t.1, ": ", t.2.2, RESET] ' ' ' '
          (by decide) (by decide)
      · by_cases htr : decide ((changesOf sc ct).length > max_details) = true
        · rw [if_pos htr] at hm2
          rcases List.mem_singleton.mp hm2 with he
          rw [he]
          exact take2_cat "    "
            [color, "... and ",
             toString ((changesOf sc ct).length - max_details), " more", RESET]
            ' ' ' ' (by decide) (by decide)
        · rw [if_neg htr] at hm2
          exact absurd hm2 (by simp)

theorem take2_countLine (ct : String) (n : Nat) :
    (countLine ct n).data.take 2 = [' ', ' '] :=
  take2_cat "  "
    [pyCapitalize ct, ": ",
     if ct == "new" && decide (n > 0) then GREEN
     else if ct == "removed" && decide (n > 0) then RED else RESET,
     toString n, RESET] ' ' ' ' (by decide) (by decide)

theorem mem_category_block_shape {dl : String} {max_details : Nat}
    {items : List (String × String)} {ct s : String}
    (h : s ∈ category_block dl max_details items ct) :
    (s = "\n  " ++ pyCapitalize ct ++ " Details:" ∧
      (dl = "all" ∨ dl = ct) ∧ items ≠ []) ∨
    s.data.take 2 = [' ', ' '] := by
  unfold category_block at h
  rcases List.mem_cons.mp h with he | hm
  · rw [he]
    exact Or.inr (take2_countLine ct items.length)
  · rcases List.mem_append.mp hm with hm1 | hm2
    · exact Or.inr (mem_tally_take2 hm1)
    · by_cases hg : (dl == "all" || dl == ct) = true
      · rw [if_pos hg] at hm2
        rcases mem_add_details_shape hm2 with ⟨he, hne⟩ | hsp
        · exact Or.inl ⟨he, by simpa using hg, hne⟩
        · exact Or.inr hsp
      · rw [if_neg hg] at hm2
        exact absurd hm2 (by simp)

theorem mem_format_analysis_shape (c : WPTReportComparator) (an : Analysis)
    (title s : String) (h : s ∈ format_analysis c an title) :
    s.data.take 2 = [' ', ' '] ∨
    s.data.take 2 = ['\n', '\x1b'] ∨
    (s = "\n  New Details:" ∧
      (c.detail_level = "all" ∨ c.detail_level = "new") ∧ an.new ≠ []) ∨
    (s = "\n  Removed Details:" ∧
      (c.detail_level = "all" ∨ c.detail_level = "removed") ∧
      an.removed ≠ []) ∨
    (s = "\n  Regressions:" ∧
      (c.detail_level = "all" ∨ c.detail_level = "changes") ∧
      changesOf an.status_changes REGRESSION ≠ []) ∨
    (s = "\n  Improvements:" ∧
      (c.detail_level = "all" ∨ c.detail_level = "changes") ∧
      changesOf an.status_changes IMPROVEMENT ≠ []) := by
  unfold format_analysis at h
  rcases List.mem_cons.mp h with he | hm
  · right
    left
    rw [he]
    exact take2_cat ("\n" ++ BOLD) [title, RESET, ":"] '\n' '\x1b'
      (by decide) (by decide)
  · rcases List.mem_append.mp hm with hm' | hm4
    · rcases List.mem_append.mp hm' with hm'' | hm3
      · rcases List.mem_append.mp hm'' with hm1 | hm2
        · rcases mem_category_block_shape hm1 with ⟨he, hg, hne⟩ | hsp
          · right; right; left
            exact ⟨by rw [he]; decide, hg, hne⟩
          · exact Or.inl hsp
        · rcases mem_category_block_shape hm2 with ⟨he, hg, hne⟩ | hsp
          · right; right; right; left
            exact ⟨by rw [he]; decide, hg, hne⟩
          · exact Or.inl hsp
      · exact Or.inl (mem_changed_take2 hm3)
    · by_cases hg : (c.detail_level == "all" || c.detail_level == "changes") = true
      · rw [if_pos hg] at hm4
        rcases List.mem_append.mp hm4 with hr | hi
        · rcases mem_change_details_shape hr with ⟨he, hne⟩ | hsp
          · right; right; right; right; left
            exact ⟨by rw [he]; rfl, by simpa using hg, hne⟩
          · exact Or.inl hsp
        · rcases mem_change_details_shape hi with ⟨he, hne⟩ | hsp
          · right; right; right; right; right
            exact ⟨by rw [he]; rfl, by simpa using hg, hne⟩
          · exact Or.inl hsp
      · rw [if_neg hg] at hm4
        exact absurd hm4 (by simp)

theorem new_header_mem (c : WPTReportComparator) (an : Analysis)
    (title : String)
    (hgate : c.detail_level = "all" ∨ c.detail_level = "new")
    (hne : an.new ≠ []) :
    "\n  New Details:" ∈ format_analysis c an title := by
  unfold format_analysis
  apply List.mem_cons_of_mem
  apply List.mem_append_left
  apply List.mem_append_left
  apply List.mem_append_left
  unfold category_block
  apply List.mem_cons_of_mem
  apply List.mem_append_right
  rw [if_pos (show (c.detail_level == "all" || c.detail_level == "new") = true
    by rcases hgate with h | h <;> simp [h])]
  unfold add_details_lines
  rw [if_neg (show ¬ an.new.isEmpty = true
    by simpa [List.isEmpty_iff] using hne)]
  rw [show ("\n  " ++ pyCapitalize "new" ++ " Details:") = "\n  New Details:"
    from by decide]
  exact List.mem_cons_self _ _

theorem removed_header_mem (c : WPTReportComparator) (an : Analysis)
    (title : String)
    (hgate : c.detail_level = "all" ∨ c.detail_level = "removed")
    (hne : an.removed ≠ []) :
    "\n  Removed Details:" ∈ format_analysis c an title := by
  unfold format_analysis
  apply List.mem_cons_of_mem
  apply List.mem_append_left
  apply List.mem_append_left
  apply List.mem_append_right
  unfold category_block
  apply List.mem_cons_of_mem
  apply List.mem_append_right
  rw [if_pos (show (c.detail_level == "all" || c.detail_level == "removed") = true
    by rcases hgate with h | h <;> simp [h])]
  unfold add_details_lines
  rw [if_neg (show ¬ an.removed.isEmpty = true
    by simpa [List.isEmpty_iff] using hne)]
  rw [show ("\n  " ++ pyCapitalize "removed" ++ " Details:") =
    "\n  Removed Details:" from by decide]
  exact List.mem_cons_self _ _

theorem reg_header_mem (c : WPTReportComparator) (an : Analysis)
    (title : String)
    (hgate : c.detail_level = "all" ∨ c.detail_level = "changes")
    (hne : changesOf an.status_changes REGRESSION ≠ []) :
    "\n  Regressions:" ∈ format_analysis c an title := by
  unfold format_analysis
  apply List.mem_cons_of_mem
  apply List.mem_append_right
  rw [if_pos (show (c.detail_level == "all" || c.detail_level == "changes") = true
    by rcases hgate with h | h <;> simp [h])]
  apply List.mem_append_left
  simp only [add_change_details_lines]
  rw [if_neg (show ¬ (changesOf an.status_changes REGRESSION).isEmpty = true
    by simpa [List.isEmpty_iff] using hne)]
  rw [show ("\n  " ++ REGRESSION ++ "s:") = "\n  Regressions:" from rfl]
  exact List.mem_cons_self _ _

theorem imp_header_mem (c : WPTReportComparator) (an : Analysis)
    (title : String)
    (hgate : c.detail_level = "all" ∨ c.detail_level = "changes")
    (hne : changesOf an.status_changes IMPROVEMENT ≠ []) :
    "\n  Improvements:" ∈ format_analysis c an title := by
  unfold format_analysis
  apply List.mem_cons_of_mem
  apply List.mem_append_right
  rw [if_pos (show (c.detail_level == "all" || c.detail_level == "changes") = true
    by rcases hgate with h | h <;> simp [h])]
  apply List.mem_append_right
  simp only [add_change_details_lines]
  rw [if_neg (show ¬ (changesOf an.status_changes IMPROVEMENT).isEmpty = true
    by simpa [List.isEmpty_iff] using hne)]
  rw [show ("\n  " ++ IMPROVEMENT ++ "s:") = "\n  Improvements:" from rfl]
  exact List.mem_cons_self _ _

/-! ### Claim C5: detail-level gating -/

/-- Claim C5 counterexample: with `detail_level = "changes"` and a
non-empty `new` list, `format_analysis` emits **no** `New Details:`
section and the new entry's key appears nowhere in the output — the
`changes` level emits only the status-change breakdown (regressions and
improvements), not the per-category details the claim asserts. -/
theorem claim_C5_counterexample :
    (⟨⟨[]⟩, ⟨[]⟩, "changes", 10, false⟩ : WPTReportComparator).detail_level =
      "changes" ∧
    (⟨[("t4", CRASH)], [], []⟩ : Analysis).new ≠ [] ∧
    "\n  New Details:" ∉
      format_analysis ⟨⟨[]⟩, ⟨[]⟩, "changes", 10, false⟩
        ⟨[("t4", CRASH)], [], []⟩ "Detailed Test Summary" ∧
    (format_analysis ⟨⟨[]⟩, ⟨[]⟩, "changes", 10, false⟩
        ⟨[("t4", CRASH)], [], []⟩ "Detailed Test Summary").all
      (fun s => !(strContainsB s "t4")) = true := by
  refine ⟨rfl, by decide, by decide, by decide⟩

/-- Claim C5 (amended): the detail-level gating of `format_analysis` is:
the `New Details:` section appears iff `detail_level ∈ {all, new}` (and
the `new` list is non-empty); `Removed Details:` iff
`detail_level ∈ {all, removed}`; the `Regressions:`/`Improvements:`
breakdowns iff `detail_level ∈ {all, changes}` (and the corresponding
change set is non-empty).  In particular `summary` emits headline counts
and tallies only, and — contrary to the claim — `changes` does **not**
emit the `new`/`removed` category details. -/
theorem claim_C5_amended (c : WPTReportComparator) (an : Analysis)
    (title : String) :
    ("\n  New Details:" ∈ format_analysis c an title ↔
      ((c.detail_level = "all" ∨ c.detail_level = "new") ∧ an.new ≠ [])) ∧
    ("\n  Removed Details:" ∈ format_analysis c an title ↔
      ((c.detail_level = "all" ∨ c.detail_level = "removed") ∧
        an.removed ≠ [])) ∧
    ("\n  Regressions:" ∈ format_analysis c an title ↔
      ((c.detail_level = "all" ∨ c.detail_level = "changes") ∧
        changesOf an.status_changes REGRESSION ≠ [])) ∧
    ("\n  Improvements:" ∈ format_analysis c an title ↔
      ((c.detail_level = "all" ∨ c.detail_level = "changes") ∧
        changesOf an.status_changes IMPROVEMENT ≠ [])) ∧
    (c.detail_level = "summary" →
      "\n  New Details:" ∉ format_analysis c an title ∧
      "\n  Removed Details:" ∉ format_analysis c an title ∧
      "\n  Regressions:" ∉ format_analysis c an title ∧
      "\n  Improvements:" ∉ format_analysis c an title) := by
  have hnew : "\n  New Details:" ∈ format_analysis c an title ↔
      ((c.detail_level = "all" ∨ c.detail_level = "new") ∧ an.new ≠ []) := by
    constructor
    · intro h
      rcases mem_format_analysis_shape c an title _ h with
        hsp | ht | ⟨_, hg, hne⟩ | ⟨he, _, _⟩ | ⟨he, _, _⟩ | ⟨he, _, _⟩
      · exact absurd hsp (by decide)
      · exact absurd ht (by decide)
      · exact ⟨hg, hne⟩
      · exact absurd he (by decide)
      · exact absurd he (by decide)
      · exact absurd he (by decide)
    · intro ⟨hg, hne⟩
      exact new_header_mem c an title hg hne
  have hrem : "\n  Removed Details:" ∈ format_analysis c an title ↔
      ((c.detail_level = "all" ∨ c.detail_level = "removed") ∧
        an.removed ≠ []) := by
    constructor
    · intro h
      rcases mem_format_analysis_shape c an title _ h with
        hsp | ht | ⟨he, _, _⟩ | ⟨_, hg, hne⟩ | ⟨he, _, _⟩ | ⟨he, _, _⟩
      · exact absurd hsp (by decide)
      · exact absurd ht (by decide)
      · exact absurd he (by decide)
      · exact ⟨hg, hne⟩
      · exact absurd he (by decide)
      · exact absurd he (by decide)
    · intro ⟨hg, hne⟩
      exact removed_header_mem c an title hg hne
  have hreg : "\n  Regressions:" ∈ format_analysis c an title ↔
      ((c.detail_level = "all" ∨ c.detail_level = "changes") ∧
        changesOf an.status_changes REGRESSION ≠ []) := by
    constructor
    · intro h
      rcases mem_format_analysis_shape c an title _ h with
        hsp | ht | ⟨he, _, _⟩ | ⟨he, _, _⟩ | ⟨_, hg, hne⟩ | ⟨he, _, _⟩
      · exact absurd hsp (by decide)
      · exact absurd ht (by decide)
      · exact absurd he (by decide)
      · exact absurd he (by decide)
      · exact ⟨hg, hne⟩
      · exact absurd he (by decide)
    · intro ⟨hg, hne⟩
      exact reg_header_mem c an title hg hne
  have himp : "\n  Improvements:" ∈ format_analysis c an title ↔
      ((c.detail_level = "all" ∨ c.detail_level = "changes") ∧
        changesOf an.status_changes IMPROVEMENT ≠ []) := by
    constructor
    · intro h
      rcases mem_format_analysis_shape c an title _ h with
        hsp | ht | ⟨he, _, _⟩ | ⟨he, _, _⟩ | ⟨he, _, _⟩ | ⟨_, hg, hne⟩
      · exact absurd hsp (by decide)
      · exact absurd ht (by decide)
      · exact absurd he (by decide)
      · exact absurd he (by decide)
      · exact absurd he (by decide)
      · exact ⟨hg, hne⟩
    · intro ⟨hg, hne⟩
      exact imp_header_mem c an title hg hne
  refine ⟨hnew, hrem, hreg, himp, ?_⟩
  intro hs
  refine ⟨?_, ?_, ?_, ?_⟩
  · intro h
    rcases (hnew.mp h).1 with h1 | h1 <;> rw [hs] at h1 <;> exact absurd h1 (by decide)
  · intro h
    rcases (hrem.mp h).1 with h1 | h1 <;> rw [hs] at h1 <;> exact absurd h1 (by decide)
  · intro h
    rcases (hreg.mp h).1 with h1 | h1 <;> rw [hs] at h1 <;> exact absurd h1 (by decide)
  · intro h
    rcases (himp.mp h).1 with h1 | h1 <;> rw [hs] at h1 <;> exact absurd h1 (by decide)

theorem claim_C5_witness :
    "\n  Regressions:" ∈
      format_analysis ⟨⟨[]⟩, ⟨[]⟩, "changes", 10, false⟩
        ⟨[], [], [("t", PASS, FAIL)]⟩ "T" ∧
    "\n  New Details:" ∉
      format_analysis ⟨⟨[]⟩, ⟨[]⟩, "summary", 10, false⟩
        ⟨[("x", CRASH)], [], []⟩ "T" :=
  ⟨((claim_C5_amended ⟨⟨[]⟩, ⟨[]⟩, "changes", 10, false⟩
      ⟨[], [], [("t", PASS, FAIL)]⟩ "T").2.2.1).mpr
      ⟨Or.inr rfl, by decide⟩,
   ((claim_C5_amended ⟨⟨[]⟩, ⟨[]⟩, "summary", 10, false⟩
      ⟨[("x", CRASH)], [], []⟩ "T").2.2.2.2 rfl).1⟩

/-! ### Claim C4: lateral `FAIL -> CRASH` changes -/

set_option maxRecDepth 16384 in
/-- Claim C4 counterexample: a key whose outcome goes `FAIL -> CRASH`
is classified `Lateral`, but the entry is **not** visible in the
comparison output: with `detail_level = "all"` the key appears nowhere
in `format_comparison` (only the aggregated `FAIL->CRASH` tally line is
emitted), because change details are rendered only for the `Regression`
and `Improvement` categories — and likewise in the spec-modelled
variant with `show_passing = false`. -/
theorem claim_C4_counterexample :
    classify_change FAIL CRASH = (LATERAL, ORANGE) ∧
    (compare_results
      (get_results ⟨[⟨"t1.html", FAIL, []⟩]⟩ false)
      (get_results ⟨[⟨"t1.html", CRASH, []⟩]⟩ false)).status_changes =
      [("t1.html", FAIL, CRASH)] ∧
    strContainsB
      (format_comparison
        ⟨⟨[⟨"t1.html", FAIL, []⟩]⟩, ⟨[⟨"t1.html", CRASH, []⟩]⟩,
         "all", 10, false⟩) "t1.html" = false ∧
    strContainsB
      (format_comparison_sp
        ⟨⟨[⟨"t1.html", FAIL, []⟩]⟩, ⟨[⟨"t1.html", CRASH, []⟩]⟩,
         "all", 10, false⟩ false) "t1.html" = false := by
  refine ⟨rfl, rfl, by decide, by decide⟩

/-- Claim C4 (amended): a `FAIL -> CRASH` status change is classified
`Lateral` (equal rank 2, different labels); it belongs to neither the
`Regression` nor the `Improvement` change-detail population (the only
two categories the renderer itemizes), so its key is never itemized;
the change is surfaced only as the aggregated `FAIL->CRASH: count` line
of the always-emitted `Changed status:` tally — independently of any
`show_passing` setting. -/
theorem claim_C4_amended (an : Analysis) (k : String)
    (h : (k, FAIL, CRASH) ∈ an.status_changes) :
    (classify_change FAIL CRASH).1 = LATERAL ∧
    (k, FAIL, CRASH) ∉ changesOf an.status_changes REGRESSION ∧
    (k, FAIL, CRASH) ∉ changesOf an.status_changes IMPROVEMENT ∧
    (∃ n : Nat, n ≠ 0 ∧
      ("    " ++ "FAIL->CRASH" ++ ": " ++ ORANGE ++ toString n ++ " " ++ RESET) ∈
        changed_status_lines an.status_changes) := by
  have hmemL : "FAIL->CRASH" ∈
      an.status_changes.map (fun t => t.2.1 ++ "->" ++ t.2.2) :=
    List.mem_map.mpr ⟨(k, FAIL, CRASH), h, rfl⟩
  refine ⟨rfl, ?_, ?_, ?_⟩
  · intro hmem
    have h2 : ((classify_change FAIL CRASH).1 == REGRESSION) = true :=
      (List.mem_filter.mp hmem).2
    exact absurd h2 (by decide)
  · intro hmem
    have h2 : ((classify_change FAIL CRASH).1 == IMPROVEMENT) = true :=
      (List.mem_filter.mp hmem).2
    exact absurd h2 (by decide)
  · refine ⟨(an.status_changes.map (fun t => t.2.1 ++ "->" ++ t.2.2)).count
      "FAIL->CRASH", ?_, ?_⟩
    · intro h0
      rw [List.count_eq_zero] at h0
      exact h0 hmemL
    · have hpair : ("FAIL->CRASH",
          (an.status_changes.map (fun t => t.2.1 ++ "->" ++ t.2.2)).count
            "FAIL->CRASH") ∈
          counter (an.status_changes.map (fun t => t.2.1 ++ "->" ++ t.2.2)) :=
        (mem_counter _ _ _).mpr ⟨hmemL, rfl⟩
      have hsorted := (pySorted_perm changeCountKey _).mem_iff.mpr hpair
      unfold changed_status_lines
      apply List.mem_cons_of_mem
      exact List.mem_filterMap.mpr ⟨_, hsorted, rfl⟩

theorem claim_C4_witness :
    (classify_change FAIL CRASH).1 = LATERAL ∧
    ("t", FAIL, CRASH) ∉
      changesOf [("t", FAIL, CRASH)] REGRESSION ∧
    ("t", FAIL, CRASH) ∉
      changesOf [("t", FAIL, CRASH)] IMPROVEMENT ∧
    (∃ n : Nat, n ≠ 0 ∧
      ("    " ++ "FAIL->CRASH" ++ ": " ++ ORANGE ++ toString n ++ " " ++ RESET) ∈
        changed_status_lines [("t", FAIL, CRASH)]) :=
  claim_C4_amended ⟨[], [], [("t", FAIL, CRASH)]⟩ "t" (by decide)

/-! ### Claim C1: the `show_passing` filter (spec-modelled) -/

/-- Claim C1 (spec-modelled, since `show_passing` is absent from the
source): the `show_passing = false` filter hides exactly the
passing-state (`PASS`/`OK`) entries from the detail populations and
suppresses the `Improvement` change details, while the `Regression`
details, the newly-failing entries, every numeric count and tally, and
the `Changed status:` block are exactly those of the unfiltered
renderer; with `show_passing = true` the renderer coincides with the
source's `format_analysis`/`format_single_file_report`. -/
theorem claim_C1 :
    (∀ (items : List (String × String)) (k s : String),
      ((k, s) ∈ filter_passing false items ↔
        ((k, s) ∈ items ∧ ¬(s = PASS ∨ s = OK)))) ∧
    (∀ (dl : String) (max_details : Nat) (an : Analysis) (title : String),
      format_analysis_sp false dl max_details an title =
        ("\n" ++ BOLD ++ title ++ RESET ++ ":") ::
        ((countLine "new" an.new.length ::
          (status_tally_lines an.new ++
           (if dl == "all" || dl == "new" then
             add_details_lines max_details (nonPassingOf an.new) "new"
           else []))) ++
         (countLine "removed" an.removed.length ::
          (status_tally_lines an.removed ++
           (if dl == "all" || dl == "removed" then
             add_details_lines max_details (nonPassingOf an.removed) "removed"
           else []))) ++
         changed_status_lines an.status_changes ++
         (if dl == "all" || dl == "changes" then
           add_change_details_lines max_details an.status_changes
             REGRESSION RED
         else []))) ∧
    (∀ (c : WPTReportComparator) (an : Analysis) (title : String),
      format_analysis_sp true c.detail_level c.max_details an title =
        format_analysis c an title) ∧
    (∀ (p : WPTReportParser) (fs : Bool) (e : DetailEntry),
      (e ∈ single_details_sp false p fs ↔
        (e ∈ rawDetails p fs ∧ ¬(e.status = PASS ∨ e.status = OK)))) ∧
    (∀ (p : WPTReportParser) (dl : String) (ss : Bool) (max_details : Nat),
      format_single_file_report_sp p dl ss max_details true =
        format_single_file_report p dl ss max_details) := by
  refine ⟨?_, ?_, ?_, ?_, ?_⟩
  · intro items k s
    simp [filter_passing, nonPassingOf, List.mem_filter]
  · intro dl max_details an title
    simp [format_analysis_sp, filter_passing]
  · intro c an title
    simp [format_analysis_sp, format_analysis, category_block, filter_passing]
  · intro p fs e
    unfold single_details_sp
    rw [(pySorted_perm detKey _).mem_iff]
    rw [if_neg (by simp)]
    simp [List.mem_filter]
  · intro p dl ss max_details
    rfl

/-! ### Claim C10: determinism under set-iteration order -/

theorem pairKey_inj : ∀ a b : String × String, pairKey a = pairKey b → a = b := by
  intro a b hk
  cases a with
  | mk a1 a2 =>
    cases b with
    | mk b1 b2 =>
      simp only [pairKey, List.cons.injEq, PyKey.str.injEq, and_true] at hk
      rw [String.ext hk.1, String.ext hk.2]

theorem tripleKey_inj : ∀ a b : String × String × String,
    tripleKey a = tripleKey b → a = b := by
  intro a b hk
  cases a with
  | mk a1 a2 =>
    cases a2 with
    | mk a2 a3 =>
      cases b with
      | mk b1 b2 =>
        cases b2 with
        | mk b2 b3 =>
          simp only [tripleKey, List.cons.injEq, PyKey.str.injEq, and_true] at hk
          rw [String.ext hk.1, String.ext hk.2.1, String.ext hk.2.2]

theorem statusCountKey_inj_counter (l : List String) :
    ∀ a ∈ counter l, ∀ b ∈ counter l,
      statusCountKey a = statusCountKey b → a = b := by
  intro a ha b hb hk
  apply counter_fst_inj l a ha b hb
  simp only [statusCountKey, List.cons.injEq, PyKey.nat.injEq, PyKey.str.injEq,
    and_true] at hk
  exact String.ext hk.2

theorem changeCountKey_inj_counter (l : List String) :
    ∀ a ∈ counter l, ∀ b ∈ counter l,
      changeCountKey a = changeCountKey b → a = b := by
  intro a ha b hb hk
  apply counter_fst_inj l a ha b hb
  simp only [changeCountKey, List.cons.injEq, PyKey.nat.injEq, PyKey.str.injEq,
    and_true] at hk
  exact String.ext hk.2.2

theorem status_tally_lines_perm {i₁ i₂ : List (String × String)}
    (h : i₁.Perm i₂) : status_tally_lines i₁ = status_tally_lines i₂ := by
  unfold status_tally_lines
  rw [pySorted_eq_of_perm statusCountKey (counter_perm (h.map _))
    (statusCountKey_inj_counter _)]

theorem group_lines_perm (max_details : Nat) (color label : String)
    {c₁ c₂ : List (String × String)} (h : c₁.Perm c₂) :
    group_lines max_details color label c₁ =
      group_lines max_details color label c₂ := by
  by_cases he : c₁ = []
  · subst he
    rw [h.symm.eq_nil]
  · have he₂ : c₂ ≠ [] := fun h2 => he (h2 ▸ h).eq_nil
    unfold group_lines
    rw [if_neg (show ¬(c₁.isEmpty = true) by
        simpa [List.isEmpty_iff] using he),
      if_neg (show ¬(c₂.isEmpty = true) by
        simpa [List.isEmpty_iff] using he₂),
      pySorted_eq_of_perm pairKey h (fun a _ b _ => pairKey_inj a b),
      h.length_eq]

theorem add_details_lines_perm (max_details : Nat) (ct : String)
    {i₁ i₂ : List (String × String)} (h : i₁.Perm i₂) :
    add_details_lines max_details i₁ ct = add_details_lines max_details i₂ ct := by
  by_cases he : i₁ = []
  · subst he
    rw [h.symm.eq_nil]
  · have he₂ : i₂ ≠ [] := fun h2 => he (h2 ▸ h).eq_nil
    have hp : (passingOf i₁).Perm (passingOf i₂) := h.filter _
    have hnp : (nonPassingOf i₁).Perm (nonPassingOf i₂) := h.filter _
    unfold add_details_lines
    rw [if_neg (show ¬(i₁.isEmpty = true) by
        simpa [List.isEmpty_iff] using he),
      if_neg (show ¬(i₂.isEmpty = true) by
        simpa [List.isEmpty_iff] using he₂),
      group_lines_perm max_details GREEN "Passing" hp,
      group_lines_perm max_details RED "Non-passing" hnp]

theorem changed_status_lines_perm {sc₁ sc₂ : List (String × String × String)}
    (h : sc₁.Perm sc₂) :
    changed_status_lines sc₁ = changed_status_lines sc₂ := by
  unfold changed_status_lines
  rw [pySorted_eq_of_perm changeCountKey (counter_perm (h.map _))
    (changeCountKey_inj_counter _)]

theorem add_change_details_lines_perm (max_details : Nat) (ct color : String)
    {sc₁ sc₂ : List (String × String × String)} (h : sc₁.Perm sc₂) :
    add_change_details_lines max_details sc₁ ct color =
      add_change_details_lines max_details sc₂ ct color := by
  have hch : (changesOf sc₁ ct).Perm (changesOf sc₂ ct) := h.filter _
  by_cases he : changesOf sc₁ ct = []
  · simp only [add_change_details_lines]
    rw [show changesOf sc₂ ct = [] from (he ▸ hch).symm.eq_nil, he]
  · have he₂ : changesOf sc₂ ct ≠ [] := fun h2 => he (h2 ▸ hch).eq_nil
    simp only [add_change_details_lines]
    rw [if_neg (show ¬((changesOf sc₁ ct).isEmpty = true) by
        simpa [List.isEmpty_iff] using he),
      if_neg (show ¬((changesOf sc₂ ct).isEmpty = true) by
        simpa [List.isEmpty_iff] using he₂),
      pySorted_eq_of_perm tripleKey hch (fun a _ b _ => tripleKey_inj a b),
      hch.length_eq]

theorem format_analysis_perm (c : WPTReportComparator) {an₁ an₂ : Analysis}
    (hn : an₁.new.Perm an₂.new) (hr : an₁.removed.Perm an₂.removed)
    (hc : an₁.status_changes.Perm an₂.status_changes) (title : String) :
    format_analysis c an₁ title = format_analysis c an₂ title := by
  unfold format_analysis category_block
  rw [hn.length_eq, hr.length_eq, status_tally_lines_perm hn,
    status_tally_lines_perm hr,
    add_details_lines_perm c.max_details "new" hn,
    add_details_lines_perm c.max_details "removed" hr,
    changed_status_lines_perm hc,
    add_change_details_lines_perm c.max_details REGRESSION RED hc,
    add_change_details_lines_perm c.max_details IMPROVEMENT GREEN hc]

theorem compare_results_ord_perm {o₁ o₂ : List String} (h : o₁.Perm o₂)
    (ra rb : List (String × String)) :
    ((compare_results_ord o₁ ra rb).new.Perm
      (compare_results_ord o₂ ra rb).new) ∧
    ((compare_results_ord o₁ ra rb).removed.Perm
      (compare_results_ord o₂ ra rb).removed) ∧
    ((compare_results_ord o₁ ra rb).status_changes.Perm
      (compare_results_ord o₂ ra rb).status_changes) :=
  ⟨(h.filter _).map _, (h.filter _).map _, (h.filter _).map _⟩

theorem compare_summaries_lines_perm (t : String) {o₁ o₂ : List String}
    (h : o₁.Perm o₂) (sa sb : List (String × Nat)) :
    format_status_summary_lines t (compare_summaries_ord o₁ sa sb) =
      format_status_summary_lines t (compare_summaries_ord o₂ sa sb) := by
  unfold format_status_summary_lines compare_summaries_ord
  rw [pySorted_eq_of_perm summaryKey (h.map _) ?_]
  intro a ha b hb hk
  obtain ⟨sa1, _, he1⟩ := List.mem_map.mp ha
  obtain ⟨sb1, _, he2⟩ := List.mem_map.mp hb
  rw [← he1, ← he2]
  rw [← he1, ← he2] at hk
  simp only [summaryKey, List.cons.injEq, PyKey.nat.injEq, PyKey.str.injEq,
    and_true] at hk
  rw [String.ext hk.2]

/-- Claim C10: `format_comparison` is deterministic in the face of the
unordered set iterations inside `compare_results` and
`compare_summaries`: permuting any of the four set-enumeration orders
leaves the rendered text unchanged, because every emitted list and tally
is sorted (or aggregated) before emission; likewise the single-report
summary depends only on the multiset of statuses, not on the tally's
insertion order.  (The embedding is purely functional, so no invocation
mutates the reports or the comparator.) -/
theorem claim_C10 (c : WPTReportComparator)
    (oST oAT oSS oAS oST2 oAT2 oSS2 oAS2 : List String)
    (h1 : oST.Perm oST2) (h2 : oAT.Perm oAT2)
    (h3 : oSS.Perm oSS2) (h4 : oAS.Perm oAS2) :
    format_comparison_ord c oST oAT oSS oAS =
      format_comparison_ord c oST2 oAT2 oSS2 oAS2 ∧
    (∀ (title : String) (total : Nat) (sts₁ sts₂ : List String),
      sts₁.Perm sts₂ →
      single_summary_lines title total (counter sts₁) =
        single_summary_lines title total (counter sts₂)) := by
  constructor
  · unfold format_comparison_ord summary_block
    obtain ⟨hn, hr, hc⟩ := compare_results_ord_perm h2
      (get_results c.parser_a false) (get_results c.parser_b false)
    obtain ⟨hn2, hr2, hc2⟩ := compare_results_ord_perm h4
      (get_results c.parser_a true) (get_results c.parser_b true)
    rw [compare_summaries_lines_perm _ h1 _ _,
      compare_summaries_lines_perm _ h3 _ _,
      format_analysis_perm c hn hr hc "Detailed Test Summary",
      format_analysis_perm c hn2 hr2 hc2 "Detailed Subtest Summary"]
  · intro title total sts₁ sts₂ hp
    unfold single_summary_lines
    have hck : ∀ k, cnt (counter sts₁) k = cnt (counter sts₂) k := by
      intro k
      rw [cnt_counter, cnt_counter, hp.count_eq]
      exact if_congr hp.mem_iff rfl rfl
    have hkeys : pySorted statusKey ((counter sts₁).map (fun q => q.1)) =
        pySorted statusKey ((counter sts₂).map (fun q => q.1)) := by
      apply pySorted_eq_of_perm statusKey ((counter_perm hp).map _)
      intro a _ b _ hk
      simp only [statusKey, List.cons.injEq, PyKey.nat.injEq, PyKey.str.injEq,
        and_true] at hk
      exact String.ext hk.2
    rw [hkeys]
    have hfun : (fun status =>
        let count := (cnt (counter sts₁) status).getD 0
        let color := if status == PASS || status == OK then GREEN else RED
        "  " ++ padTo 10 status ++ " " ++ color ++ toString count ++ RESET) =
        (fun status =>
        let count := (cnt (counter sts₂) status).getD 0
        let color := if status == PASS || status == OK then GREEN else RED
        "  " ++ padTo 10 status ++ " " ++ color ++ toString count ++ RESET) :=
      funext (fun status => by simp only [hck])
    rw [hfun]

theorem claim_C10_witness :
    format_comparison_ord
      ⟨⟨[⟨"a", PASS, []⟩]⟩, ⟨[⟨"a", FAIL, []⟩, ⟨"b", CRASH, []⟩]⟩,
       "all", 10, false⟩ ["PASS", "FAIL"] ["a", "b"] [] [] =
    format_comparison_ord
      ⟨⟨[⟨"a", PASS, []⟩]⟩, ⟨[⟨"a", FAIL, []⟩, ⟨"b", CRASH, []⟩]⟩,
       "all", 10, false⟩ ["FAIL", "PASS"] ["b", "a"] [] [] :=
  (claim_C10
    ⟨⟨[⟨"a", PASS, []⟩]⟩, ⟨[⟨"a", FAIL, []⟩, ⟨"b", CRASH, []⟩]⟩,
     "all", 10, false⟩ _ _ _ _ _ _ _ _
    (by decide) (by decide) (by decide) (by decide)).1

end WPTA
